import Mathlib

/-!
# WhatsApp tool-call bot: turn orchestration and tool dispatch

A shallow embedding of `internal/handlers/handlers.go` and
`internal/services/tools/manager.go`, with the records of
`internal/models/models.go`.

The handler talks to collaborators (the database, the Fonnte gateway, the
completion service, the registered tools, the clock, `encoding/json`).  Every
call to a collaborator is appended to a chronological log of events, and the
answer of a collaborator is an arbitrary function of the log so far and of the
arguments of the call.  A statement that quantifies over `Env` therefore holds
for every deterministic behaviour of the collaborators, stateful or not.
Log lines written through `logrus` are not modelled, and a clock reading whose
only use is a log line is left out.
-/

namespace WhatsappBot

/-! ## Data model -/

/-- Dynamic values of Go type `interface{}` as they travel through the tool
pipeline (tool arguments and tool results); the code never inspects them
directly, it only hands them to `encoding/json`. -/
inductive Value where
  | null
  | bool (b : Bool)
  | num (n : Int)
  | str (s : String)
  | arr (xs : List Value)
  | obj (kvs : List (String × Value))

/-- Go `map[string]interface{}`: `none` is the nil map. -/
abbrev Params := Option (List (String × Value))

/-- A reading of `time.Now()`: the wall clock in Unix nanoseconds and the
monotonic clock in nanoseconds. -/
structure GoTime where
  wall : Int
  mono : Int

/-- Record `models.Message` (the fields the handler sets). -/
structure Message where
  MessageID : String
  FromJID : String
  ToJID : String
  Content : String
  MessageType : String
  IsFromMe : Bool
  Timestamp : GoTime

/-- Record `models.Conversation` (the fields the handler reads or sets). -/
structure Conversation where
  JID : String
  LastMessage : String
  MessageCount : Int

/-- Record `models.ToolExecution` (the fields the manager sets). -/
structure ToolExecution where
  MessageID : String
  ToolName : String
  Parameters : String
  Result : String
  Success : Bool
  ErrorMsg : String
  ExecutionTime : Int

/-- Struct `openaiService.ChatMessage`. -/
structure ChatMessage where
  Role : String
  Content : String

/-- Struct `openai.FunctionCall` of a tool call. -/
structure FunctionCall where
  Name : String
  Arguments : String

/-- Struct `openai.ToolCall`. -/
structure ToolCall where
  ID : String
  Function : FunctionCall

/-- The message of a completion choice: its text and its tool calls. -/
structure ChoiceMessage where
  Content : String
  ToolCalls : List ToolCall

/-- Struct `openai.ChatCompletionChoice`. -/
structure Choice where
  Message : ChoiceMessage

/-- Struct `openai.ChatCompletionResponse`. -/
structure ChatCompletionResponse where
  Choices : List Choice

/-- Struct `openai.Tool` with its function definition flattened. -/
structure ToolDef where
  ToolType : String
  Name : String
  Description : String
  Parameters : Value

/-- Struct `tools.ExecutionResult`. -/
structure ExecutionResult where
  Success : Bool
  Result : Value
  Error : String
  Duration : Int
  ToolName : String

/-- Struct `tools.ImageGenerationResult`. -/
structure ImageGenerationResult where
  ImageURL : String
  RevisedPrompt : String

/-! ## Events and collaborators -/

/-- One call to a collaborator. -/
inductive Event where
  | getOrCreateConversation (jid : String)
  | getMessages (jid : String) (limit : Int)
  | saveMessage (m : Message)
  | updateConversation (c : Conversation)
  | saveToolExecution (e : ToolExecution)
  | sendMessage (target message : String)
  | sendImage (target imageURL caption : String)
  | generateResponse (messages : List ChatMessage) (tools : List ToolDef)
  | toolExecute (toolName : String) (parameters : Params)
  | now

/-- Chronological log of collaborator calls, oldest first. -/
abbrev Log := List Event

/-- Interface `tools.Tool`.  `Execute` returns the Go pair `(result, err)`;
the error is `none` for `nil` and otherwise carries the text of `err.Error()`. -/
structure Tool where
  Name : String
  Description : String
  Execute : Log → Params → Value × Option String

/-- Behaviour of the collaborators.  Each field answers one call, given the
log of all earlier calls.  Errors carry the text of `err.Error()`. -/
structure Env where
  /-- Answer of `db.GetOrCreateConversation`. -/
  getOrCreateConversation : Log → String → Except String Conversation
  /-- Answer of `db.GetMessages`, newest first. -/
  getMessages : Log → String → Int → Except String (List Message)
  /-- Answer of `db.SaveMessage` (only logged by the handler). -/
  saveMessage : Log → Message → Option String
  /-- Answer of `db.UpdateConversation` (only logged by the handler). -/
  updateConversation : Log → Conversation → Option String
  /-- Answer of `db.SaveToolExecution` (only logged by the manager). -/
  saveToolExecution : Log → ToolExecution → Option String
  /-- Answer of `fonnte.SendMessage`: the error, if any (only logged). -/
  sendMessage : Log → String → String → Option String
  /-- Answer of `fonnte.SendImage`: the error, if any. -/
  sendImage : Log → String → String → String → Option String
  /-- Answer of `openai.GenerateResponse`. -/
  generateResponse : Log → List ChatMessage → List ToolDef → Except String ChatCompletionResponse
  /-- Reading of `time.Now()`. -/
  now : Log → GoTime
  /-- Decoding `json.Unmarshal([]byte(arguments), &parameters)`. -/
  unmarshalParams : String → Except String Params
  /-- Encoding `json.Marshal(parameters)`. -/
  marshalParams : Params → Except String String
  /-- Encoding `json.Marshal(result)`. -/
  marshalResult : Value → Except String String
  /-- The round trip `json.Marshal(result.Result)` followed by
  `json.Unmarshal` into an `ImageGenerationResult`. -/
  decodeImageResult : Value → Except String ImageGenerationResult

/-! ## Library functions the code calls -/

/-- Go `unicode.IsSpace`. -/
def isSpace (c : Char) : Bool :=
  c == '\t' || c == '\n' || c.toNat == 0x0B || c.toNat == 0x0C || c == '\r' || c == ' '
    || c.toNat == 0x85 || c.toNat == 0xA0 || c.toNat == 0x1680
    || (0x2000 ≤ c.toNat && c.toNat ≤ 0x200A)
    || c.toNat == 0x2028 || c.toNat == 0x2029 || c.toNat == 0x202F
    || c.toNat == 0x205F || c.toNat == 0x3000

/-- Go `strings.TrimSpace`: the string without leading and trailing white
space. -/
def TrimSpace (s : String) : String :=
  String.mk ((((s.data.dropWhile isSpace).reverse).dropWhile isSpace).reverse)

/-- Bounds of Go `int64`. -/
def maxInt64 : Int := 9223372036854775807

/-- Least value of Go `int64`. -/
def minInt64 : Int := -9223372036854775808

/-- Go `time.Since(start)` read at time `t`: the elapsed monotonic time in
nanoseconds, saturated to the range of `time.Duration`. -/
def since (t start : GoTime) : Int :=
  let d := t.mono - start.mono
  if d > maxInt64 then maxInt64 else if d < minInt64 then minInt64 else d

/-- Go `Duration.Milliseconds`: integer division truncated toward zero. -/
def Milliseconds (d : Int) : Int := Int.tdiv d 1000000

/-- Go `n++` on an `int` (64 bits): wraps around on overflow. -/
def incrInt (n : Int) : Int :=
  if n + 1 > maxInt64 then minInt64 else n + 1

/-! ## The tool manager (`internal/services/tools/manager.go`) -/

/-- Struct `tools.Manager`: the map from tool name to tool, as an association
list with at most one entry per key when built by `RegisterTool`. -/
structure Manager where
  tools : List (String × Tool)

/-- Function `NewManager`: an empty registry. -/
def NewManager : Manager := ⟨[]⟩

/-- Go map assignment `m[k] = v`: replaces the value of an existing key in
place, or adds the key. -/
def mapSet (k : String) (v : Tool) : List (String × Tool) → List (String × Tool)
  | [] => [(k, v)]
  | (k', v') :: rest => if k' = k then (k, v) :: rest else (k', v') :: mapSet k v rest

/-- Go map read `v, ok := m[k]`. -/
def mapGet (k : String) : List (String × Tool) → Option Tool
  | [] => none
  | (k', v') :: rest => if k' = k then some v' else mapGet k rest

/-- Method `Manager.RegisterTool`. -/
def Manager.RegisterTool (m : Manager) (tool : Tool) : Manager :=
  ⟨mapSet tool.Name tool m.tools⟩

/-- Method `Manager.ExecuteTool`: the log after the call and the Go pair
`(*ExecutionResult, error)`, which is `(nil, err)` or `(result, nil)`. -/
def Manager.ExecuteTool (m : Manager) (env : Env) (log : Log) (messageID toolName : String)
    (parameters : Params) : Log × Except String ExecutionResult :=
  match mapGet toolName m.tools with
  | none => (log, .error ("tool '" ++ toolName ++ "' not found"))
  | some tool =>
    let start := env.now log
    let log1 := log ++ [.now]
    let (result, err) := tool.Execute log1 parameters
    let log2 := log1 ++ [.toolExecute toolName parameters]
    let duration := since (env.now log2) start
    let log3 := log2 ++ [.now]
    let execution : ToolExecution :=
      { MessageID := messageID
        ToolName := toolName
        Parameters := match env.marshalParams parameters with
          | .ok paramBytes => paramBytes
          | .error _ => ""
        Result := match err with
          | some _ => ""
          | none => match env.marshalResult result with
            | .ok resultBytes => resultBytes
            | .error _ => ""
        Success := err.isNone
        ErrorMsg := match err with
          | some e => e
          | none => ""
        ExecutionTime := Milliseconds duration }
    let log4 := log3 ++ [.saveToolExecution execution]
    (log4, .ok
      { Success := err.isNone
        Result := result
        Error := match err with
          | some e => e
          | none => ""
        Duration := Milliseconds duration
        ToolName := toolName })

/-- The descriptor `GetAvailableTools` emits for the image tool. -/
def generateImageToolDef : ToolDef :=
  { ToolType := "function"
    Name := "generate_image"
    Description := "Generate an image based on text prompt"
    Parameters := .obj
      [ ("type", .str "object"),
        ("properties", .obj
          [ ("prompt", .obj
              [ ("type", .str "string"),
                ("description", .str "Text description of the image to generate") ]),
            ("style", .obj
              [ ("type", .str "string"),
                ("enum", .arr [.str "realistic", .str "cartoon", .str "artistic"]),
                ("description", .str "Style of the generated image") ]),
            ("size", .obj
              [ ("type", .str "string"),
                ("enum", .arr [.str "256x256", .str "512x512", .str "1024x1024"]),
                ("description", .str "Size of the generated image") ]) ]),
        ("required", .arr [.str "prompt"]) ] }

/-- Method `Manager.GetAvailableTools`: one fixed descriptor for every
registered tool whose name is `generate_image`.  The map is walked in list
order; Go leaves the order unspecified. -/
def Manager.GetAvailableTools (m : Manager) : List ToolDef :=
  (m.tools.filter (fun kv => kv.2.Name == "generate_image")).map (fun _ => generateImageToolDef)

/-! ## The handler (`internal/handlers/handlers.go`) -/

/-- Struct `handlers.Handler`: the tool manager; the other services are the
collaborators of `Env`. -/
structure Handler where
  toolMgr : Manager

/-- Method `Handler.sendTextMessage`: one `SendMessage` call; its error is
only logged. -/
def sendTextMessage (log : Log) (sender message : String) : Log :=
  log ++ [.sendMessage sender message]

/-- Method `Handler.sendErrorMessage`: one `SendMessage` call; its error is
only logged. -/
def sendErrorMessage (log : Log) (sender message : String) : Log :=
  log ++ [.sendMessage sender message]

/-- Method `Handler.handleImageGenerationResult`. -/
def handleImageGenerationResult (env : Env) (log : Log) (sender : String)
    (result : ExecutionResult) (assistantMessage : String) : Log :=
  if !result.Success then
    sendErrorMessage log sender
      "Sorry, I couldn't generate the image. Please try again with a different prompt."
  else
    match env.decodeImageResult result.Result with
    | .error _ =>
      sendErrorMessage log sender "Sorry, there was an error processing the generated image."
    | .ok imageResult =>
      let caption := if assistantMessage = "" then "Here's your generated image!"
        else assistantMessage
      match env.sendImage log sender imageResult.ImageURL caption with
      | some _ =>
        sendErrorMessage (log ++ [.sendImage sender imageResult.ImageURL caption]) sender
          "Sorry, I couldn't send the generated image."
      | none => log ++ [.sendImage sender imageResult.ImageURL caption]

/-- Body of the loop of `Handler.handleToolCalls` for one tool call; a Go
`continue` ends the body. -/
def handleToolCall (h : Handler) (env : Env) (sender assistantMessage : String)
    (log : Log) (toolCall : ToolCall) : Log :=
  match env.unmarshalParams toolCall.Function.Arguments with
  | .error _ => log
  | .ok parameters =>
    match h.toolMgr.ExecuteTool env log toolCall.ID toolCall.Function.Name parameters with
    | (log1, .error _) =>
      sendErrorMessage log1 sender
        ("Sorry, I couldn't execute the " ++ toolCall.Function.Name ++ " tool.")
    | (log1, .ok result) =>
      if toolCall.Function.Name = "generate_image" then
        handleImageGenerationResult env log1 sender result assistantMessage
      else
        sendTextMessage log1 sender
          ("Tool " ++ toolCall.Function.Name ++ " executed successfully")

/-- Method `Handler.handleToolCalls`: the loop over the tool calls, in order. -/
def handleToolCalls (h : Handler) (env : Env) (sender : String) :
    List ToolCall → String → Log → Log
  | [], _, log => log
  | toolCall :: rest, assistantMessage, log =>
    handleToolCalls h env sender rest assistantMessage
      (handleToolCall h env sender assistantMessage log toolCall)

/-- The fixed system message that opens every context. -/
def systemMessage : ChatMessage :=
  { Role := "system"
    Content := "You are a helpful WhatsApp AI assistant. You can generate images when requested. Be friendly and helpful." }

/-- The chat message built from one stored message in the history loop. -/
def historyEntry (msg : Message) : ChatMessage :=
  { Role := if msg.IsFromMe then "assistant" else "user"
    Content := msg.Content }

/-- The history loop `for i := len(recentMessages) - 1; i >= 0; i--`: the
first argument is `i + 1`, the number of iterations still to run. -/
def appendHistory (recentMessages : List Message) : Nat → List ChatMessage → List ChatMessage
  | 0, messages => messages
  | i + 1, messages =>
    match recentMessages.get? i with
    | some msg => appendHistory recentMessages i (messages ++ [historyEntry msg])
    | none => appendHistory recentMessages i messages

/-- The message sequence `processMessage` builds for the completion service. -/
def buildMessages (recentMessages : List Message) (message : String) : List ChatMessage :=
  appendHistory recentMessages recentMessages.length [systemMessage]
    ++ [{ Role := "user", Content := message }]

/-- Go `fmt.Sprintf("%d", n)` for an `int64`. -/
def formatInt (n : Int) : String := toString n

/-- The tail of `Handler.processMessage` after the reply was sent: the two
message records and the conversation update. -/
def persistTurn (env : Env) (log : Log) (sender message : String) (conversation : Conversation)
    (content : String) : Log :=
  let t1 := env.now log
  let log1 := log ++ [.now]
  let t2 := env.now log1
  let log2 := log1 ++ [.now]
  let userMsg : Message :=
    { MessageID := "user_" ++ formatInt t1.wall
      FromJID := sender
      ToJID := "bot"
      Content := message
      MessageType := "text"
      IsFromMe := false
      Timestamp := t2 }
  let log3 := log2 ++ [.saveMessage userMsg]
  let t3 := env.now log3
  let log4 := log3 ++ [.now]
  let t4 := env.now log4
  let log5 := log4 ++ [.now]
  let assistantMsg : Message :=
    { MessageID := "assistant_" ++ formatInt t3.wall
      FromJID := "bot"
      ToJID := sender
      Content := content
      MessageType := "text"
      IsFromMe := true
      Timestamp := t4 }
  let log6 := log5 ++ [.saveMessage assistantMsg]
  let conversation1 : Conversation :=
    { conversation with LastMessage := message, MessageCount := incrInt conversation.MessageCount }
  log6 ++ [.updateConversation conversation1]

/-- Method `Handler.processMessage`: the log after the turn. -/
def processMessage (h : Handler) (env : Env) (log : Log) (sender message : String) : Log :=
  if TrimSpace message = "" then log
  else
    match env.getOrCreateConversation log sender with
    | .error _ => log ++ [.getOrCreateConversation sender]
    | .ok conversation =>
      let log1 := log ++ [.getOrCreateConversation sender]
      let recentMessages := match env.getMessages log1 sender 10 with
        | .ok ms => ms
        | .error _ => []
      let log2 := log1 ++ [.getMessages sender 10]
      let messages := buildMessages recentMessages message
      let tools := h.toolMgr.GetAvailableTools
      match env.generateResponse log2 messages tools with
      | .error _ =>
        sendErrorMessage (log2 ++ [.generateResponse messages tools]) sender
          "Sorry, I'm having trouble processing your message right now."
      | .ok response =>
        let log3 := log2 ++ [.generateResponse messages tools]
        match response.Choices with
        | [] => sendErrorMessage log3 sender "Sorry, I couldn't generate a response."
        | choice :: _ =>
          let log4 :=
            if choice.Message.ToolCalls.length > 0 then
              handleToolCalls h env sender choice.Message.ToolCalls choice.Message.Content log3
            else
              sendTextMessage log3 sender choice.Message.Content
          persistTurn env log4 sender message conversation choice.Message.Content

/-! ## Observations on a log -/

/-- Whether an event is an outbound call to the messaging gateway. -/
def Event.isGatewaySend : Event → Bool
  | .sendMessage _ _ => true
  | .sendImage _ _ _ => true
  | _ => false

/-- The number of gateway calls in a log. -/
def gatewaySends (log : Log) : Nat := log.countP Event.isGatewaySend

/-- The message sequence of a completion call. -/
def Event.completionCall : Event → Option (List ChatMessage)
  | .generateResponse messages _ => some messages
  | _ => none

/-- The record of a `SaveToolExecution` call. -/
def Event.toolExecutionRecord : Event → Option ToolExecution
  | .saveToolExecution e => some e
  | _ => none

/-- The tool name and arguments of an executor invocation. -/
def Event.executorCall : Event → Option (String × Params)
  | .toolExecute name parameters => some (name, parameters)
  | _ => none

/-- The target and text of a `SendMessage` call. -/
def Event.textSent : Event → Option (String × String)
  | .sendMessage target message => some (target, message)
  | _ => none

/-- The target, image URL and caption of a `SendImage` call. -/
def Event.imageSent : Event → Option (String × String × String)
  | .sendImage target url caption => some (target, url, caption)
  | _ => none

/-- The message sequences passed to the completion service, in order. -/
def completionCalls (log : Log) : List (List ChatMessage) := log.filterMap Event.completionCall

/-- The records passed to `SaveToolExecution`, in order. -/
def toolExecutionRecords (log : Log) : List ToolExecution :=
  log.filterMap Event.toolExecutionRecord

/-- The executor invocations, in order: tool name and arguments. -/
def executorCalls (log : Log) : List (String × Params) := log.filterMap Event.executorCall

/-- The `SendMessage` calls, in order: target and text. -/
def textsSent (log : Log) : List (String × String) := log.filterMap Event.textSent

/-- The `SendImage` calls, in order: target, image URL and caption. -/
def imagesSent (log : Log) : List (String × String × String) := log.filterMap Event.imageSent

/-- Whether every character of a string is white space for `unicode.IsSpace`. -/
def isBlank (s : String) : Prop := ∀ c ∈ s.data, isSpace c = true

/-- The stored messages `processMessage` uses as history in a turn started
at `log`: the answer of `GetMessages`, or nothing when it fails. -/
def turnHistory (env : Env) (log : Log) (sender : String) : List Message :=
  match env.getMessages (log ++ [.getOrCreateConversation sender]) sender 10 with
  | .ok ms => ms
  | .error _ => []

/-- The answer the completion service gives in a turn started at `log`. -/
def turnResponse (h : Handler) (env : Env) (log : Log) (sender message : String) :
    Except String ChatCompletionResponse :=
  env.generateResponse (log ++ [.getOrCreateConversation sender, .getMessages sender 10])
    (buildMessages (turnHistory env log sender) message) h.toolMgr.GetAvailableTools

/-- The record `ExecuteTool` hands to `SaveToolExecution` when it runs `tool`
from `log` (shown equal to the one in `Manager.ExecuteTool` by
`ExecuteTool_registered`). -/
def executionRecord (env : Env) (log : Log) (messageID toolName : String) (parameters : Params)
    (tool : Tool) : ToolExecution :=
  { MessageID := messageID
    ToolName := toolName
    Parameters := match env.marshalParams parameters with
      | .ok paramBytes => paramBytes
      | .error _ => ""
    Result := match (tool.Execute (log ++ [.now]) parameters).2 with
      | some _ => ""
      | none => match env.marshalResult (tool.Execute (log ++ [.now]) parameters).1 with
        | .ok resultBytes => resultBytes
        | .error _ => ""
    Success := (tool.Execute (log ++ [.now]) parameters).2.isNone
    ErrorMsg := match (tool.Execute (log ++ [.now]) parameters).2 with
      | some e => e
      | none => ""
    ExecutionTime := Milliseconds
      (since (env.now (log ++ [.now, .toolExecute toolName parameters])) (env.now log)) }

/-- The outcome `ExecuteTool` returns when it runs `tool` from `log` (shown
equal to the one in `Manager.ExecuteTool` by `ExecuteTool_registered`). -/
def executionOutcome (env : Env) (log : Log) (toolName : String) (parameters : Params)
    (tool : Tool) : ExecutionResult :=
  { Success := (tool.Execute (log ++ [.now]) parameters).2.isNone
    Result := (tool.Execute (log ++ [.now]) parameters).1
    Error := match (tool.Execute (log ++ [.now]) parameters).2 with
      | some e => e
      | none => ""
    Duration := Milliseconds
      (since (env.now (log ++ [.now, .toolExecute toolName parameters])) (env.now log))
    ToolName := toolName }

/-- The events `ExecuteTool` appends when it runs `tool` from `log`. -/
def executionEvents (env : Env) (log : Log) (messageID toolName : String) (parameters : Params)
    (tool : Tool) : List Event :=
  [.now, .toolExecute toolName parameters, .now,
    .saveToolExecution (executionRecord env log messageID toolName parameters tool)]

/-- The arguments and the tool a tool call is dispatched to: present when the
arguments text decodes and the tool name is registered. -/
def dispatch (h : Handler) (env : Env) (toolCall : ToolCall) : Option (Params × Tool) :=
  match env.unmarshalParams toolCall.Function.Arguments with
  | .error _ => none
  | .ok p =>
    match mapGet toolCall.Function.Name h.toolMgr.tools with
    | none => none
    | some tool => some (p, tool)

/-- Whether the arguments text of a tool call decodes. -/
def argumentsDecode (env : Env) (toolCall : ToolCall) : Bool :=
  match env.unmarshalParams toolCall.Function.Arguments with
  | .error _ => false
  | .ok _ => true

/-- The log of a turn started at `log` once the completion service was
called: the two storage reads and the completion call. -/
def contextLog (h : Handler) (env : Env) (log : Log) (sender message : String) : Log :=
  log ++ [.getOrCreateConversation sender, .getMessages sender 10,
    .generateResponse (buildMessages (turnHistory env log sender) message)
      h.toolMgr.GetAvailableTools]

/-- The tool name and arguments of the executor invocation a tool call leads
to, if any. -/
def dispatchedCall (h : Handler) (env : Env) (toolCall : ToolCall) : Option (String × Params) :=
  (dispatch h env toolCall).map (fun pt => (toolCall.Function.Name, pt.1))

/-- The correlation id and tool name of the record a tool call leads to, if
any. -/
def dispatchedRecord (h : Handler) (env : Env) (toolCall : ToolCall) : Option (String × String) :=
  (dispatch h env toolCall).map (fun _ => (toolCall.ID, toolCall.Function.Name))

/-! ## Concrete collaborators -/

/-- An image tool whose executor succeeds with a fixed image URL. -/
def demoImageTool : Tool :=
  { Name := "generate_image"
    Description := "Generate an image based on text prompt"
    Execute := fun _ _ => (.obj [("image_url", .str "https://x/y.png")], none) }

/-- An image tool whose executor fails. -/
def failingImageTool : Tool :=
  { Name := "generate_image"
    Description := "Generate an image based on text prompt"
    Execute := fun _ _ => (.null, some "image generation failed: timeout") }

/-- A tool call for the image tool with arguments that decode. -/
def catCall : ToolCall :=
  { ID := "call_1"
    Function := { Name := "generate_image", Arguments := "\x7b\"prompt\":\"a cat\"\x7d" } }

/-- A tool call for the image tool whose arguments text is cut short. -/
def brokenCall : ToolCall :=
  { ID := "call_2"
    Function := { Name := "generate_image", Arguments := "\x7b\"prompt\":" } }

/-- A tool call for the tool `get_weather`, which `demoHandler` does not
register. -/
def weatherCall : ToolCall :=
  { ID := "call_3"
    Function := { Name := "get_weather", Arguments := "\x7b\x7d" } }

/-- Collaborators that all succeed: an empty store, a clock that ticks once
per event, a completion service that asks for one image, and a decoder that
knows the two argument texts used here. -/
def demoEnv : Env :=
  { getOrCreateConversation := fun _ jid => .ok { JID := jid, LastMessage := "", MessageCount := 0 }
    getMessages := fun _ _ _ => .ok []
    saveMessage := fun _ _ => none
    updateConversation := fun _ _ => none
    saveToolExecution := fun _ _ => none
    sendMessage := fun _ _ _ => none
    sendImage := fun _ _ _ _ => none
    generateResponse := fun _ _ _ =>
      .ok { Choices := [{ Message := { Content := "", ToolCalls := [catCall] } }] }
    now := fun l => { wall := l.length, mono := l.length }
    unmarshalParams := fun s =>
      if s = "\x7b\"prompt\":\"a cat\"\x7d" then .ok (some [("prompt", .str "a cat")])
      else if s = "\x7b\x7d" then .ok (some [])
      else .error "unexpected end of JSON input"
    marshalParams := fun _ => .ok "\x7b\x7d"
    marshalResult := fun _ => .ok "\x7b\x7d"
    decodeImageResult := fun v =>
      match v with
      | .obj [("image_url", .str u)] => .ok { ImageURL := u, RevisedPrompt := "" }
      | _ => .error "json: cannot unmarshal into Go value of type tools.ImageGenerationResult" }

/-- The collaborators of `demoEnv` with a store that fails to load the
conversation. -/
def storeDownEnv : Env :=
  { demoEnv with getOrCreateConversation := fun _ _ => .error "database is locked" }

/-- The handler of the program: the image tool is the only registered tool. -/
def demoHandler : Handler := ⟨NewManager.RegisterTool demoImageTool⟩

/-- A handler whose image tool fails. -/
def failingHandler : Handler := ⟨NewManager.RegisterTool failingImageTool⟩

/-- Three stored messages, oldest to newest. -/
def storedFirst : Message :=
  { MessageID := "user_1", FromJID := "sender", ToJID := "bot", Content := "first",
    MessageType := "text", IsFromMe := false, Timestamp := { wall := 1, mono := 1 } }

/-- The second stored message, sent by the bot. -/
def storedSecond : Message :=
  { MessageID := "assistant_2", FromJID := "bot", ToJID := "sender", Content := "second",
    MessageType := "text", IsFromMe := true, Timestamp := { wall := 2, mono := 2 } }

/-- The third and newest stored message. -/
def storedThird : Message :=
  { MessageID := "user_3", FromJID := "sender", ToJID := "bot", Content := "third",
    MessageType := "text", IsFromMe := false, Timestamp := { wall := 3, mono := 3 } }

/-- The collaborators of `demoEnv` with a store that holds three messages and
returns them newest first. -/
def historyEnv : Env :=
  { demoEnv with getMessages := fun _ _ _ => .ok [storedThird, storedSecond, storedFirst] }

/-- The context sequence in the words of the specification: the fixed system
message, then the stored messages oldest first, each with role `assistant`
when it is from the bot and `user` otherwise, then the new message as a user
message. -/
def specContext (history : List Message) (message : String) : List ChatMessage :=
  [systemMessage]
    ++ history.reverse.map (fun msg =>
        { Role := if msg.IsFromMe then "assistant" else "user", Content := msg.Content })
    ++ [{ Role := "user", Content := message }]

/-- A tool other than the image tool, whose executor fails. -/
def failingWeatherTool : Tool :=
  { Name := "get_weather"
    Description := "Get the weather"
    Execute := fun _ _ => (.null, some "upstream 503") }

/-- A handler with the image tool and the failing weather tool. -/
def weatherHandler : Handler :=
  ⟨(NewManager.RegisterTool demoImageTool).RegisterTool failingWeatherTool⟩

/-- Whether the list of characters `s` starts with the list `pat`. -/
def beginsWith : List Char → List Char → Bool
  | _, [] => true
  | [], _ :: _ => false
  | c :: s, p :: pat => c == p && beginsWith s pat

/-- Whether the list `pat` occurs in the list `s` as a contiguous run. -/
def containsChars : List Char → List Char → Bool
  | [], pat => pat.isEmpty
  | c :: s, pat => beginsWith (c :: s) pat || containsChars s pat

/-- Go `strings.Contains`. -/
def Contains (s substr : String) : Bool := containsChars s.data substr.data

/-- A clock whose monotonic reading never decreases as the log grows. -/
def clockNonDecreasing (env : Env) : Prop :=
  ∀ l l' : Log, (env.now l).mono ≤ (env.now (l ++ l')).mono

/-! ## The store (`internal/services/database/database.go`) -/

/-- The tables of the store that the handler and the manager use, rows in
insertion order.  The generated primary keys and the `CreatedAt` and
`UpdatedAt` columns are left out; a conversation row is identified by its
unique `JID`. -/
structure Store where
  conversations : List Conversation
  messages : List Message
  toolExecutions : List ToolExecution

/-- A store without rows. -/
def emptyStore : Store := ⟨[], [], []⟩

/-- Method `DB.GetOrCreateConversation` on a store that answers every query:
the first row with the `jid`, and on `gorm.ErrRecordNotFound` a new row with
`MessageCount` 0, inserted with `db.Create`.  Returns the store after the call
and the Go pair `(conversation, err)`. -/
def DB.GetOrCreateConversation (s : Store) (jid : String) : Store × Except String Conversation :=
  match s.conversations.find? (fun c => c.JID == jid) with
  | some conversation => (s, .ok conversation)
  | none =>
    let conversation : Conversation := { JID := jid, LastMessage := "", MessageCount := 0 }
    ({ s with conversations := s.conversations ++ [conversation] }, .ok conversation)

/-- Call `db.Save` on a conversation: the row of the same conversation is
replaced, and the row is inserted when there is none. -/
def saveConversationRow (c : Conversation) : List Conversation → List Conversation
  | [] => [c]
  | row :: rest => if row.JID = c.JID then c :: rest else row :: saveConversationRow c rest

/-- Method `DB.UpdateConversation`. -/
def DB.UpdateConversation (s : Store) (c : Conversation) : Store × Option String :=
  ({ s with conversations := saveConversationRow c s.conversations }, none)

/-- Method `DB.SaveMessage`: `db.Create`, refused when a row with the same
`MessageID` exists (the column has a unique index). -/
def DB.SaveMessage (s : Store) (m : Message) : Store × Option String :=
  if s.messages.any (fun row => row.MessageID == m.MessageID) then
    (s, some "UNIQUE constraint failed: messages.message_id")
  else ({ s with messages := s.messages ++ [m] }, none)

/-- Method `DB.SaveToolExecution`: `db.Create`. -/
def DB.SaveToolExecution (s : Store) (e : ToolExecution) : Store × Option String :=
  ({ s with toolExecutions := s.toolExecutions ++ [e] }, none)

/-- Method `DB.GetMessages`: the rows from or to the `jid`, newest first, at
most `limit` of them. -/
def DB.GetMessages (s : Store) (jid : String) (limit : Int) : Except String (List Message) :=
  .ok (((s.messages.filter (fun m => m.FromJID == jid || m.ToJID == jid)).insertionSort
    (fun a b => b.Timestamp.wall ≤ a.Timestamp.wall)).take limit.toNat)

/-- The effect of one logged call on the store. -/
def Store.step (s : Store) : Event → Store
  | .getOrCreateConversation jid => (DB.GetOrCreateConversation s jid).1
  | .saveMessage m => (DB.SaveMessage s m).1
  | .updateConversation c => (DB.UpdateConversation s c).1
  | .saveToolExecution e => (DB.SaveToolExecution s e).1
  | _ => s

/-- The store after the calls of a log were made on the store `s`. -/
def Store.after (s : Store) (log : Log) : Store := log.foldl Store.step s

/-- The collaborators of `base` with the storage calls answered by the store
that starts as `s`. -/
def storeEnv (base : Env) (s : Store) : Env :=
  { base with
    getOrCreateConversation := fun log jid => (DB.GetOrCreateConversation (s.after log) jid).2
    getMessages := fun log jid limit => DB.GetMessages (s.after log) jid limit
    saveMessage := fun log m => (DB.SaveMessage (s.after log) m).2
    updateConversation := fun log c => (DB.UpdateConversation (s.after log) c).2
    saveToolExecution := fun log e => (DB.SaveToolExecution (s.after log) e).2 }

/-! ## More observations and concrete collaborators -/

/-- Whether an event is one of the writes that close a turn: `SaveMessage` or
`UpdateConversation`. -/
def Event.isBookkeeping : Event → Bool
  | .saveMessage _ => true
  | .updateConversation _ => true
  | _ => false

/-- The `SaveMessage` and `UpdateConversation` calls of a log, in order. -/
def bookkeeping (log : Log) : List Event := log.filter Event.isBookkeeping

/-- The collaborators of `demoEnv` with a completion service that fails. -/
def completionDownEnv : Env :=
  { demoEnv with generateResponse := fun _ _ _ => .error "OpenAI request failed: timeout" }

/-- The collaborators of `demoEnv` with a completion service that answers with
a text and no tool call. -/
def directEnv : Env :=
  { demoEnv with
    generateResponse := fun _ _ _ =>
      .ok { Choices := [{ Message := { Content := "Hello!", ToolCalls := [] } }] } }

/-- The collaborators of `directEnv` with a store that fails to read the
messages. -/
def historyDownEnv : Env :=
  { directEnv with getMessages := fun _ _ _ => .error "database is locked" }

/-- An image tool registered with a description of its own. -/
def customImageTool : Tool :=
  { Name := "generate_image"
    Description := "Draw pictures"
    Execute := fun _ _ => (.obj [("image_url", .str "https://x/z.png")], none) }

/-- The walk of `GetAvailableTools` over the entries of the map in a given
order. -/
def descriptorsOf (entries : List (String × Tool)) : List ToolDef :=
  (entries.filter (fun kv => kv.2.Name == "generate_image")).map (fun _ => generateImageToolDef)

/-- A sequence of `RegisterTool` calls, first to last. -/
def registerAll (tools : List Tool) (m : Manager) : Manager :=
  tools.foldl Manager.RegisterTool m

/-- A store that already holds a conversation with the sender. -/
def knownStore : Store :=
  ⟨[{ JID := "sender", LastMessage := "hello", MessageCount := 3 }], [], []⟩

theorem TrimSpace_eq_empty_iff (s : String) : TrimSpace s = "" ↔ isBlank s := by
  have hdrop : ∀ l : List Char, (∀ c ∈ l.dropWhile isSpace, isSpace c = true) →
      l.dropWhile isSpace = [] := by
    intro l
    induction l with
    | nil => exact fun _ => rfl
    | cons a t ih =>
      intro hall
      cases hp : isSpace a with
      | true =>
        rw [List.dropWhile_cons, hp, if_pos rfl] at hall ⊢
        exact ih hall
      | false =>
        rw [List.dropWhile_cons, hp, if_neg Bool.false_ne_true] at hall
        exact absurd ((hall a (List.mem_cons_self a t)).symm.trans hp) Bool.noConfusion
  constructor
  · intro hempty
    have h1 : ((s.data.dropWhile isSpace).reverse.dropWhile isSpace).reverse = [] :=
      congrArg String.data hempty
    have h2 : (s.data.dropWhile isSpace).reverse.dropWhile isSpace = [] :=
      List.reverse_eq_nil_iff.mp h1
    exact List.dropWhile_eq_nil_iff.mp (hdrop s.data
      (fun c hc => List.dropWhile_eq_nil_iff.mp h2 c (List.mem_reverse.mpr hc)))
  · intro hblank
    have h3 : s.data.dropWhile isSpace = [] := List.dropWhile_eq_nil_iff.mpr hblank
    show String.mk (((s.data.dropWhile isSpace).reverse.dropWhile isSpace).reverse) = ""
    rw [h3]
    rfl

/-! ## Observations distribute over the log -/

theorem observations_append (l l' : Log) :
    textsSent (l ++ l') = textsSent l ++ textsSent l'
    ∧ imagesSent (l ++ l') = imagesSent l ++ imagesSent l'
    ∧ executorCalls (l ++ l') = executorCalls l ++ executorCalls l'
    ∧ toolExecutionRecords (l ++ l') = toolExecutionRecords l ++ toolExecutionRecords l'
    ∧ bookkeeping (l ++ l') = bookkeeping l ++ bookkeeping l'
    ∧ gatewaySends (l ++ l') = gatewaySends l + gatewaySends l'
    ∧ completionCalls (l ++ l') = completionCalls l ++ completionCalls l' :=
  ⟨List.filterMap_append _ _ _, List.filterMap_append _ _ _, List.filterMap_append _ _ _,
    List.filterMap_append _ _ _, List.filter_append _ _, List.countP_append _ _ _,
    List.filterMap_append _ _ _⟩

/-! ## The context sequence -/

theorem buildMessages_eq (recentMessages : List Message) (message : String) :
    buildMessages recentMessages message
      = systemMessage :: (recentMessages.reverse.map historyEntry
          ++ [{ Role := "user", Content := message }]) := by
  have htake : ∀ (l : List Message) (i : Nat),
      l.take (i + 1) = l.take i ++ (l.get? i).toList := by
    intro l
    induction l with
    | nil => intro i; cases i <;> rfl
    | cons a t ih =>
      intro i
      cases i with
      | zero => rfl
      | succ j => exact congrArg (List.cons a) (ih j)
  have hloop : ∀ (n : Nat) (messages : List ChatMessage),
      appendHistory recentMessages n messages
        = messages ++ ((recentMessages.take n).reverse.map historyEntry) := by
    intro n
    induction n with
    | zero => exact fun messages => (List.append_nil _).symm
    | succ i ih =>
      intro messages
      rw [htake]
      show (match recentMessages.get? i with
        | some msg => appendHistory recentMessages i (messages ++ [historyEntry msg])
        | none => appendHistory recentMessages i messages) = _
      cases recentMessages.get? i with
      | none =>
        show appendHistory recentMessages i messages
          = messages ++ ((recentMessages.take i ++ []).reverse.map historyEntry)
        rw [ih, List.append_nil]
      | some msg =>
        show appendHistory recentMessages i (messages ++ [historyEntry msg])
          = messages ++ ((recentMessages.take i ++ [msg]).reverse.map historyEntry)
        rw [ih, List.reverse_append, List.append_assoc]
        rfl
  show appendHistory recentMessages recentMessages.length [systemMessage] ++ _ = _
  rw [hloop, List.take_length]
  rfl

/-! ## Case analysis of the tool pipeline -/

theorem ExecuteTool_unregistered (m : Manager) (env : Env) (log : Log)
    (messageID toolName : String) (parameters : Params)
    (hreg : mapGet toolName m.tools = none) :
    m.ExecuteTool env log messageID toolName parameters
      = (log, .error ("tool '" ++ toolName ++ "' not found")) := by
  delta Manager.ExecuteTool
  rw [hreg]

theorem ExecuteTool_registered (m : Manager) (env : Env) (log : Log)
    (messageID toolName : String) (parameters : Params) (tool : Tool)
    (hreg : mapGet toolName m.tools = some tool) :
    m.ExecuteTool env log messageID toolName parameters
      = (log ++ executionEvents env log messageID toolName parameters tool,
          .ok (executionOutcome env log toolName parameters tool)) := by
  delta Manager.ExecuteTool
  rw [hreg]
  dsimp only
  rw [List.append_assoc log, List.append_assoc log, List.append_assoc log]
  rfl

theorem handleImageGenerationResult_cases (env : Env) (log : Log) (sender : String)
    (result : ExecutionResult) (assistantMessage : String) :
    (result.Success = false ∧
      handleImageGenerationResult env log sender result assistantMessage
        = log ++ [.sendMessage sender
            "Sorry, I couldn't generate the image. Please try again with a different prompt."])
    ∨ (result.Success = true ∧ ∃ e, env.decodeImageResult result.Result = .error e ∧
      handleImageGenerationResult env log sender result assistantMessage
        = log ++ [.sendMessage sender "Sorry, there was an error processing the generated image."])
    ∨ (result.Success = true ∧ ∃ r e, env.decodeImageResult result.Result = .ok r ∧
      env.sendImage log sender r.ImageURL
        (if assistantMessage = "" then "Here's your generated image!" else assistantMessage)
          = some e ∧
      handleImageGenerationResult env log sender result assistantMessage
        = log ++ [.sendImage sender r.ImageURL
            (if assistantMessage = "" then "Here's your generated image!" else assistantMessage),
          .sendMessage sender "Sorry, I couldn't send the generated image."])
    ∨ (result.Success = true ∧ ∃ r, env.decodeImageResult result.Result = .ok r ∧
      env.sendImage log sender r.ImageURL
        (if assistantMessage = "" then "Here's your generated image!" else assistantMessage)
          = none ∧
      handleImageGenerationResult env log sender result assistantMessage
        = log ++ [.sendImage sender r.ImageURL
            (if assistantMessage = "" then "Here's your generated image!" else assistantMessage)]) := by
  delta handleImageGenerationResult sendErrorMessage
  cases result.Success with
  | false => exact Or.inl ⟨rfl, rfl⟩
  | true =>
    refine Or.inr ?_
    cases env.decodeImageResult result.Result with
    | error e => exact Or.inl ⟨rfl, e, rfl, rfl⟩
    | ok r =>
      refine Or.inr ?_
      dsimp only
      cases hi : env.sendImage log sender r.ImageURL
          (if assistantMessage = "" then "Here's your generated image!" else assistantMessage) with
      | some e => exact Or.inl ⟨rfl, r, e, rfl, hi, List.append_assoc _ _ _⟩
      | none => exact Or.inr ⟨rfl, r, rfl, hi, rfl⟩

/-! ## What the tool calls add to the log -/

theorem handleToolCall_delta (h : Handler) (env : Env) (sender assistantMessage : String)
    (log : Log) (toolCall : ToolCall) :
    ∃ d, handleToolCall h env sender assistantMessage log toolCall = log ++ d
      ∧ completionCalls d = [] ∧ bookkeeping d = []
      ∧ executorCalls d = (dispatchedCall h env toolCall).toList
      ∧ (toolExecutionRecords d).map (fun e => (e.MessageID, e.ToolName))
          = (dispatchedRecord h env toolCall).toList
      ∧ gatewaySends d ≤ 2
      ∧ (if argumentsDecode env toolCall = true then 1 else 0) ≤ gatewaySends d
      ∧ ((∀ l t u c, env.sendImage l t u c = none) → gatewaySends d ≤ 1) := by
  delta dispatchedCall dispatchedRecord dispatch argumentsDecode handleToolCall
    sendErrorMessage sendTextMessage
  cases env.unmarshalParams toolCall.Function.Arguments with
  | error e =>
    exact ⟨[], (List.append_nil log).symm, rfl, rfl, rfl, rfl, Nat.zero_le _, Nat.le_refl _,
      fun _ => Nat.zero_le _⟩
  | ok p =>
    dsimp only
    cases hreg : mapGet toolCall.Function.Name h.toolMgr.tools with
    | none =>
      rw [ExecuteTool_unregistered _ _ _ _ _ _ hreg]
      exact ⟨_, rfl, rfl, rfl, rfl, rfl, Nat.le_succ _, Nat.le_refl _, fun _ => Nat.le_refl _⟩
    | some tool =>
      rw [ExecuteTool_registered _ _ _ _ _ _ _ hreg]
      dsimp only
      by_cases hname : toolCall.Function.Name = "generate_image"
      · rw [if_pos hname]
        rcases handleImageGenerationResult_cases env
            (log ++ executionEvents env log toolCall.ID toolCall.Function.Name p tool) sender
            (executionOutcome env log toolCall.Function.Name p tool) assistantMessage with
          ⟨_, heq⟩ | ⟨_, e, _, heq⟩ | ⟨_, r, e, _, hsend, heq⟩ | ⟨_, r, _, _, heq⟩
        · rw [heq]
          exact ⟨_, List.append_assoc _ _ _, rfl, rfl, rfl, rfl, Nat.le_succ _, Nat.le_refl _,
            fun _ => Nat.le_refl _⟩
        · rw [heq]
          exact ⟨_, List.append_assoc _ _ _, rfl, rfl, rfl, rfl, Nat.le_succ _, Nat.le_refl _,
            fun _ => Nat.le_refl _⟩
        · rw [heq]
          exact ⟨_, List.append_assoc _ _ _, rfl, rfl, rfl, rfl, Nat.le_refl _, Nat.le_succ _,
            fun hnone => Option.noConfusion ((hnone _ _ _ _).symm.trans hsend)⟩
        · rw [heq]
          exact ⟨_, List.append_assoc _ _ _, rfl, rfl, rfl, rfl, Nat.le_succ _, Nat.le_refl _,
            fun _ => Nat.le_refl _⟩
      · rw [if_neg hname]
        exact ⟨_, List.append_assoc _ _ _, rfl, rfl, rfl, rfl, Nat.le_succ _, Nat.le_refl _,
          fun _ => Nat.le_refl _⟩

theorem handleToolCalls_delta (h : Handler) (env : Env) (sender : String)
    (toolCalls : List ToolCall) (assistantMessage : String) (log : Log) :
    ∃ d, handleToolCalls h env sender toolCalls assistantMessage log = log ++ d
      ∧ completionCalls d = [] ∧ bookkeeping d = []
      ∧ executorCalls d = toolCalls.filterMap (dispatchedCall h env)
      ∧ (toolExecutionRecords d).map (fun e => (e.MessageID, e.ToolName))
          = toolCalls.filterMap (dispatchedRecord h env)
      ∧ gatewaySends d ≤ 2 * toolCalls.length
      ∧ toolCalls.countP (argumentsDecode env) ≤ gatewaySends d
      ∧ ((∀ l t u c, env.sendImage l t u c = none) → gatewaySends d ≤ toolCalls.length) := by
  induction toolCalls generalizing log with
  | nil =>
    exact ⟨[], (List.append_nil log).symm, rfl, rfl, rfl, rfl, Nat.le_refl _, Nat.le_refl _,
      fun _ => Nat.le_refl _⟩
  | cons toolCall rest ih =>
    obtain ⟨d1, hd1, a1, a2, a3, a4, a5, a6, a7⟩ :=
      handleToolCall_delta h env sender assistantMessage log toolCall
    obtain ⟨d2, hd2, b1, b2, b3, b4, b5, b6, b7⟩ := ih (log ++ d1)
    obtain ⟨_, _, o3, o4, o5, o6, o7⟩ := observations_append d1 d2
    refine ⟨d1 ++ d2, ?_, ?_, ?_, ?_, ?_, ?_, ?_, ?_⟩
    · show handleToolCalls h env sender rest assistantMessage
        (handleToolCall h env sender assistantMessage log toolCall) = _
      rw [hd1, hd2, List.append_assoc]
    · rw [o7, a1, b1]
      rfl
    · rw [o5, a2, b2]
      rfl
    · rw [o3, a3, b3, List.filterMap_cons]
      cases dispatchedCall h env toolCall <;> rfl
    · rw [o4, List.map_append, a4, b4, List.filterMap_cons]
      cases dispatchedRecord h env toolCall <;> rfl
    · rw [o6, Nat.add_comm (gatewaySends d1)]
      exact Nat.add_le_add b5 a5
    · rw [o6, List.countP_cons, Nat.add_comm (gatewaySends d1)]
      exact Nat.add_le_add b6 a6
    · intro hnone
      rw [o6, Nat.add_comm (gatewaySends d1)]
      exact Nat.add_le_add (b7 hnone) (a7 hnone)

/-! ## The turn, stage by stage -/

theorem processMessage_stops (h : Handler) (env : Env) (log : Log) (sender message : String) :
    (isBlank message → processMessage h env log sender message = log)
    ∧ (¬ isBlank message → ∀ e, env.getOrCreateConversation log sender = .error e →
      processMessage h env log sender message = log ++ [.getOrCreateConversation sender]) := by
  constructor
  · intro hm
    exact if_pos ((TrimSpace_eq_empty_iff message).mpr hm)
  · intro hm e hc
    delta processMessage
    rw [if_neg (fun ht => hm ((TrimSpace_eq_empty_iff message).mp ht)), hc]

theorem processMessage_eq (h : Handler) (env : Env) (log : Log) (sender message : String)
    (conversation : Conversation) (hm : ¬ isBlank message)
    (hc : env.getOrCreateConversation log sender = .ok conversation) :
    processMessage h env log sender message
      = match turnResponse h env log sender message with
        | .error _ => contextLog h env log sender message ++ [.sendMessage sender
              "Sorry, I'm having trouble processing your message right now."]
        | .ok response =>
          match response.Choices with
          | [] => contextLog h env log sender message ++ [.sendMessage sender
                "Sorry, I couldn't generate a response."]
          | choice :: _ =>
            persistTurn env
              (if choice.Message.ToolCalls.length > 0 then
                handleToolCalls h env sender choice.Message.ToolCalls choice.Message.Content
                  (contextLog h env log sender message)
              else
                contextLog h env log sender message
                  ++ [.sendMessage sender choice.Message.Content])
              sender message conversation choice.Message.Content := by
  delta processMessage
  rw [if_neg (fun ht => hm ((TrimSpace_eq_empty_iff message).mp ht)), hc]
  dsimp only
  rw [List.append_assoc log, List.append_assoc log]
  rfl

theorem observations_contextLog (h : Handler) (env : Env) (log : Log) (sender message : String) :
    textsSent (contextLog h env log sender message) = textsSent log
    ∧ imagesSent (contextLog h env log sender message) = imagesSent log
    ∧ executorCalls (contextLog h env log sender message) = executorCalls log
    ∧ toolExecutionRecords (contextLog h env log sender message) = toolExecutionRecords log
    ∧ bookkeeping (contextLog h env log sender message) = bookkeeping log
    ∧ gatewaySends (contextLog h env log sender message) = gatewaySends log
    ∧ completionCalls (contextLog h env log sender message)
        = completionCalls log ++ [buildMessages (turnHistory env log sender) message] := by
  obtain ⟨o1, o2, o3, o4, o5, o6, o7⟩ := observations_append log
    [.getOrCreateConversation sender, .getMessages sender 10,
      .generateResponse (buildMessages (turnHistory env log sender) message)
        h.toolMgr.GetAvailableTools]
  exact ⟨o1.trans (List.append_nil _), o2.trans (List.append_nil _),
    o3.trans (List.append_nil _), o4.trans (List.append_nil _), o5.trans (List.append_nil _),
    o6, o7⟩

theorem observations_sendMessage (log : Log) (target text : String) :
    textsSent (log ++ [.sendMessage target text]) = textsSent log ++ [(target, text)]
    ∧ imagesSent (log ++ [.sendMessage target text]) = imagesSent log
    ∧ executorCalls (log ++ [.sendMessage target text]) = executorCalls log
    ∧ toolExecutionRecords (log ++ [.sendMessage target text]) = toolExecutionRecords log
    ∧ bookkeeping (log ++ [.sendMessage target text]) = bookkeeping log
    ∧ gatewaySends (log ++ [.sendMessage target text]) = gatewaySends log + 1
    ∧ completionCalls (log ++ [.sendMessage target text]) = completionCalls log := by
  obtain ⟨o1, o2, o3, o4, o5, o6, o7⟩ := observations_append log [.sendMessage target text]
  exact ⟨o1, o2.trans (List.append_nil _), o3.trans (List.append_nil _),
    o4.trans (List.append_nil _), o5.trans (List.append_nil _), o6,
    o7.trans (List.append_nil _)⟩

theorem observations_persistTurn (env : Env) (log : Log) (sender message : String)
    (conversation : Conversation) (content : String) :
    textsSent (persistTurn env log sender message conversation content) = textsSent log
    ∧ imagesSent (persistTurn env log sender message conversation content) = imagesSent log
    ∧ executorCalls (persistTurn env log sender message conversation content)
        = executorCalls log
    ∧ toolExecutionRecords (persistTurn env log sender message conversation content)
        = toolExecutionRecords log
    ∧ gatewaySends (persistTurn env log sender message conversation content)
        = gatewaySends log
    ∧ completionCalls (persistTurn env log sender message conversation content)
        = completionCalls log
    ∧ ∃ userMsg assistantMsg,
      bookkeeping (persistTurn env log sender message conversation content)
        = bookkeeping log ++ [.saveMessage userMsg, .saveMessage assistantMsg,
            .updateConversation { conversation with
              LastMessage := message, MessageCount := incrInt conversation.MessageCount }]
      ∧ userMsg.Content = message ∧ userMsg.FromJID = sender ∧ userMsg.IsFromMe = false
      ∧ assistantMsg.Content = content ∧ assistantMsg.ToJID = sender
      ∧ assistantMsg.IsFromMe = true := by
  have hdelta : ∃ userMsg assistantMsg,
      persistTurn env log sender message conversation content
        = log ++ [.now, .now, .saveMessage userMsg, .now, .now, .saveMessage assistantMsg,
            .updateConversation { conversation with
              LastMessage := message, MessageCount := incrInt conversation.MessageCount }]
      ∧ userMsg.Content = message ∧ userMsg.FromJID = sender ∧ userMsg.IsFromMe = false
      ∧ assistantMsg.Content = content ∧ assistantMsg.ToJID = sender
      ∧ assistantMsg.IsFromMe = true := by
    delta persistTurn
    dsimp only
    rw [List.append_assoc log, List.append_assoc log, List.append_assoc log,
      List.append_assoc log, List.append_assoc log, List.append_assoc log]
    exact ⟨_, _, rfl, rfl, rfl, rfl, rfl, rfl, rfl⟩
  obtain ⟨userMsg, assistantMsg, hp, h1, h2, h3, h4, h5, h6⟩ := hdelta
  obtain ⟨o1, o2, o3, o4, o5, o6, o7⟩ := observations_append log
    [.now, .now, .saveMessage userMsg, .now, .now, .saveMessage assistantMsg,
      .updateConversation { conversation with
        LastMessage := message, MessageCount := incrInt conversation.MessageCount }]
  rw [hp]
  exact ⟨o1.trans (List.append_nil _), o2.trans (List.append_nil _),
    o3.trans (List.append_nil _), o4.trans (List.append_nil _), o6,
    o7.trans (List.append_nil _), userMsg, assistantMsg, o5, h1, h2, h3, h4, h5, h6⟩

theorem processMessage_observations (h : Handler) (env : Env) (log : Log)
    (sender message : String) (conversation : Conversation) (hm : ¬ isBlank message)
    (hc : env.getOrCreateConversation log sender = .ok conversation) :
    completionCalls (processMessage h env log sender message)
      = completionCalls log ++ [buildMessages (turnHistory env log sender) message]
    ∧ (∀ e, turnResponse h env log sender message = .error e →
      gatewaySends (processMessage h env log sender message) = gatewaySends log + 1)
    ∧ (∀ response, turnResponse h env log sender message = .ok response →
      response.Choices = [] →
      gatewaySends (processMessage h env log sender message) = gatewaySends log + 1)
    ∧ (∀ response choice rest, turnResponse h env log sender message = .ok response →
      response.Choices = choice :: rest →
      (choice.Message.ToolCalls = [] →
        gatewaySends (processMessage h env log sender message) = gatewaySends log + 1)
      ∧ (choice.Message.ToolCalls ≠ [] →
        gatewaySends (processMessage h env log sender message)
          ≤ gatewaySends log + 2 * choice.Message.ToolCalls.length
        ∧ ((∀ l t u c, env.sendImage l t u c = none) →
          gatewaySends (processMessage h env log sender message)
            ≤ gatewaySends log + choice.Message.ToolCalls.length)
        ∧ gatewaySends log + choice.Message.ToolCalls.countP (argumentsDecode env)
          ≤ gatewaySends (processMessage h env log sender message))) := by
  obtain ⟨_, _, _, _, _, cg, cc⟩ := observations_contextLog h env log sender message
  have hsend : ∀ text,
      completionCalls (contextLog h env log sender message ++ [.sendMessage sender text])
        = completionCalls log ++ [buildMessages (turnHistory env log sender) message]
      ∧ gatewaySends (contextLog h env log sender message ++ [.sendMessage sender text])
        = gatewaySends log + 1 := by
    intro text
    obtain ⟨_, _, _, _, _, sg, sc⟩ :=
      observations_sendMessage (contextLog h env log sender message) sender text
    exact ⟨sc.trans cc, sg.trans (congrArg (fun n => n + 1) cg)⟩
  have htools : ∀ toolCalls assistantMessage, ∃ d,
      handleToolCalls h env sender toolCalls assistantMessage
          (contextLog h env log sender message)
        = contextLog h env log sender message ++ d
      ∧ completionCalls (contextLog h env log sender message ++ d)
          = completionCalls log ++ [buildMessages (turnHistory env log sender) message]
      ∧ gatewaySends (contextLog h env log sender message ++ d)
          ≤ gatewaySends log + 2 * toolCalls.length
      ∧ ((∀ l t u c, env.sendImage l t u c = none) →
        gatewaySends (contextLog h env log sender message ++ d)
          ≤ gatewaySends log + toolCalls.length)
      ∧ gatewaySends log + toolCalls.countP (argumentsDecode env)
          ≤ gatewaySends (contextLog h env log sender message ++ d) := by
    intro toolCalls assistantMessage
    obtain ⟨d, hd, h1, _, _, _, h5, h6, h7⟩ := handleToolCalls_delta h env sender toolCalls
      assistantMessage (contextLog h env log sender message)
    obtain ⟨_, _, _, _, _, og, oc⟩ :=
      observations_append (contextLog h env log sender message) d
    refine ⟨d, hd, ?_, ?_, ?_, ?_⟩
    · rw [oc, h1, List.append_nil]
      exact cc
    · rw [og, cg]
      exact Nat.add_le_add_left h5 _
    · intro hnone
      rw [og, cg]
      exact Nat.add_le_add_left (h7 hnone) _
    · rw [og, cg]
      exact Nat.add_le_add_left h6 _
  rw [processMessage_eq h env log sender message conversation hm hc]
  refine ⟨?_, fun e he => ?_, fun response hr hch => ?_, fun response choice rest hr hch => ?_⟩
  · cases turnResponse h env log sender message with
    | error e => exact (hsend _).1
    | ok response =>
      dsimp only
      cases response.Choices with
      | nil => exact (hsend _).1
      | cons choice rest =>
        dsimp only
        rw [(observations_persistTurn env _ sender message conversation
          choice.Message.Content).2.2.2.2.2.1]
        by_cases hlen : choice.Message.ToolCalls.length > 0
        · rw [if_pos hlen]
          obtain ⟨d, hd, hcompl, _⟩ := htools choice.Message.ToolCalls choice.Message.Content
          rw [hd]
          exact hcompl
        · rw [if_neg hlen]
          exact (hsend _).1
  · rw [he]
    exact (hsend _).2
  · rw [hr]
    dsimp only
    rw [hch]
    exact (hsend _).2
  · rw [hr]
    dsimp only
    rw [hch]
    dsimp only
    rw [(observations_persistTurn env _ sender message conversation
      choice.Message.Content).2.2.2.2.1]
    constructor
    · intro hnil
      rw [hnil]
      exact (hsend _).2
    · intro hne
      rw [if_pos (List.length_pos.mpr hne)]
      obtain ⟨d, hd, _, hg⟩ := htools choice.Message.ToolCalls choice.Message.Content
      rw [hd]
      exact hg

/-! ## The registry as a map -/

theorem mapGet_mapSet (k k' : String) (v : Tool) (l : List (String × Tool)) :
    mapGet k (mapSet k' v l) = if k' = k then some v else mapGet k l := by
  induction l with
  | nil => rfl
  | cons kv rest ih =>
    obtain ⟨a, b⟩ := kv
    show mapGet k (if a = k' then (k', v) :: rest else (a, b) :: mapSet k' v rest)
      = if k' = k then some v else (if a = k then some b else mapGet k rest)
    by_cases hak : a = k'
    · rw [if_pos hak]
      show (if k' = k then some v else mapGet k rest) = _
      by_cases hk : k' = k
      · simp only [if_pos hk]
      · simp only [if_neg hk, if_neg (fun hcontra : a = k => hk (hak.symm.trans hcontra))]
    · rw [if_neg hak]
      show (if a = k then some b else mapGet k (mapSet k' v rest)) = _
      rw [ih]
      by_cases hk : a = k
      · simp only [if_pos hk, if_neg (fun hcontra : k' = k => hak (hk.trans hcontra.symm))]
      · simp only [if_neg hk]

theorem keys_mapSet (k : String) (v : Tool) (l : List (String × Tool)) :
    (mapSet k v l).map Prod.fst
      = if (mapGet k l).isSome then l.map Prod.fst else l.map Prod.fst ++ [k] := by
  induction l with
  | nil => rfl
  | cons kv rest ih =>
    obtain ⟨a, b⟩ := kv
    show ((if a = k then (k, v) :: rest else (a, b) :: mapSet k v rest).map Prod.fst)
      = if (if a = k then some b else mapGet k rest).isSome = true
          then a :: rest.map Prod.fst else a :: (rest.map Prod.fst ++ [k])
    by_cases hk : a = k
    · rw [if_pos hk, if_pos hk]
      exact congrArg (fun x => x :: rest.map Prod.fst) hk.symm
    · rw [if_neg hk, if_neg hk, List.map_cons, ih]
      cases (mapGet k rest).isSome <;> rfl

/-! ## Claims -/

/-- C3.  When `GetMessages` answers with the newest-first list `history`, every
message sequence the turn passes to the completion service is the fixed system
message, then `history` reversed with each stored message given the role
`assistant` when it is from the bot and `user` otherwise and its content
unchanged, then the inbound text as a user message; the turn passes exactly
this one sequence when the message is not whitespace-only and the conversation
is loaded.  The sequence starts with the system message, holds exactly one
message of role `system`, ends with the new message, and lists three stored
messages oldest first. -/
theorem context_sequence (h : Handler) (env : Env) (log : Log) (sender message : String)
    (history : List Message)
    (hget : env.getMessages (log ++ [.getOrCreateConversation sender]) sender 10 = .ok history) :
    (completionCalls (processMessage h env log sender message) = completionCalls log
      ∨ completionCalls (processMessage h env log sender message)
          = completionCalls log ++ [specContext history message])
    ∧ (¬ isBlank message → (∃ c, env.getOrCreateConversation log sender = .ok c) →
      completionCalls (processMessage h env log sender message)
        = completionCalls log ++ [specContext history message])
    ∧ (specContext history message).head? = some systemMessage
    ∧ (specContext history message).countP (fun m => m.Role == "system") = 1
    ∧ (specContext history message).getLast? = some { Role := "user", Content := message }
    ∧ (∀ m1 m2 m3, history = [m3, m2, m1] →
      specContext history message
        = [systemMessage,
            { Role := if m1.IsFromMe then "assistant" else "user", Content := m1.Content },
            { Role := if m2.IsFromMe then "assistant" else "user", Content := m2.Content },
            { Role := if m3.IsFromMe then "assistant" else "user", Content := m3.Content },
            { Role := "user", Content := message }]) := by
  have hhist : turnHistory env log sender = history := by
    delta turnHistory
    rw [hget]
  have hspec : specContext history message = buildMessages history message := by
    rw [buildMessages_eq]
    rfl
  have hexact : ∀ c, ¬ isBlank message → env.getOrCreateConversation log sender = .ok c →
      completionCalls (processMessage h env log sender message)
        = completionCalls log ++ [specContext history message] := by
    intro c hm hc
    rw [(processMessage_observations h env log sender message c hm hc).1, hhist, hspec]
  have hrole : ∀ b : Bool,
      ((if b = true then "assistant" else "user") == "system") = false := by
    intro b
    cases b <;> rfl
  have hzero : ∀ l : List Message, List.countP (fun m : ChatMessage => m.Role == "system")
      (l.map (fun msg =>
        { Role := if msg.IsFromMe then "assistant" else "user", Content := msg.Content }))
      = 0 := by
    intro l
    induction l with
    | nil => rfl
    | cons msg rest ih =>
      rw [List.map_cons, List.countP_cons, ih]
      exact congrArg (fun b : Bool => 0 + if b = true then 1 else 0) (hrole msg.IsFromMe)
  have hlast : ∀ (l : List ChatMessage) (a : ChatMessage), (l ++ [a]).getLast? = some a := by
    intro l a
    induction l with
    | nil => rfl
    | cons b t ih =>
      cases t with
      | nil => rfl
      | cons c u => exact ih
  refine ⟨?_, ?_, rfl, ?_, hlast _ _, ?_⟩
  · by_cases hm : isBlank message
    · left
      rw [(processMessage_stops h env log sender message).1 hm]
    · cases hc : env.getOrCreateConversation log sender with
      | error e =>
        left
        rw [(processMessage_stops h env log sender message).2 hm e hc]
        exact (observations_append log _).2.2.2.2.2.2.trans (List.append_nil _)
      | ok c => right; exact hexact c hm hc
  · rintro hm ⟨c, hc⟩
    exact hexact c hm hc
  · show List.countP _ ([systemMessage] ++ _ ++ [_]) = 1
    rw [List.countP_append, List.countP_append, hzero]
    rfl
  · intro m1 m2 m3 hh
    rw [hh]
    rfl

/-- Witness for C3: with three stored messages the completion service receives
the system message, the three messages oldest first and the new message. -/
theorem context_sequence_witness :
    historyEnv.getMessages ([] ++ [.getOrCreateConversation "sender"]) "sender" 10
        = .ok [storedThird, storedSecond, storedFirst]
    ∧ completionCalls (processMessage demoHandler historyEnv [] "sender" "hi")
        = completionCalls []
          ++ [specContext [storedThird, storedSecond, storedFirst] "hi"] :=
  ⟨rfl, (context_sequence demoHandler historyEnv [] "sender" "hi"
    [storedThird, storedSecond, storedFirst] rfl).2.1 (by delta isBlank; decide)
      ⟨{ JID := "sender", LastMessage := "", MessageCount := 0 }, rfl⟩⟩

/-- C4.  For a message made only of white space (the empty message included)
the turn appends nothing to the log of collaborator calls: no call to the
completion service, to the gateway or to the store. -/
theorem blank_message_makes_no_call (h : Handler) (env : Env) (log : Log)
    (sender message : String) (hm : isBlank message) :
    processMessage h env log sender message = log :=
  (processMessage_stops h env log sender message).1 hm

/-- Witness for C4: a message of a space, a tab and a line feed. -/
theorem blank_message_makes_no_call_witness :
    isBlank " \t\n" ∧ processMessage demoHandler demoEnv [] "sender" " \t\n" = [] :=
  ⟨by delta isBlank; decide,
    blank_message_makes_no_call demoHandler demoEnv [] "sender" " \t\n"
      (by delta isBlank; decide)⟩

/-- C2, as stated, fails.  A tool call for an unregistered tool and a tool
call whose arguments do not decode each leave no `ToolExecution` record, and
`ExecuteTool` on the unregistered name produces no `ExecutionResult`. -/
theorem tool_record_counterexample :
    toolExecutionRecords (handleToolCalls demoHandler demoEnv "sender" [weatherCall] "" []) = []
    ∧ (¬ ∃ r, (demoHandler.toolMgr.ExecuteTool demoEnv [] "call_3" "get_weather" (some [])).2
        = .ok r)
    ∧ toolExecutionRecords (handleToolCalls demoHandler demoEnv "sender" [brokenCall] "" [])
        = [] := by
  refine ⟨rfl, ?_, rfl⟩
  rintro ⟨r, hr⟩
  cases hr

/-- C2, amended.  Handling the tool calls of the top choice writes exactly one
`ToolExecution` record, carrying the id and the tool name of the call, for each
tool call whose arguments decode and whose tool name is registered, in order,
and no record for any other tool call; `ExecuteTool` returns exactly one
`ExecutionResult` and writes exactly one record when the name is registered,
and returns an error and writes nothing when it is not. -/
theorem tool_record_amended (h : Handler) (env : Env) (sender : String)
    (toolCalls : List ToolCall) (assistantMessage : String) (log : Log) :
    (toolExecutionRecords
        (handleToolCalls h env sender toolCalls assistantMessage log)).map
          (fun e => (e.MessageID, e.ToolName))
      = (toolExecutionRecords log).map (fun e => (e.MessageID, e.ToolName))
          ++ toolCalls.filterMap (dispatchedRecord h env)
    ∧ (∀ toolCall, dispatchedRecord h env toolCall
        = if argumentsDecode env toolCall = true
            ∧ (mapGet toolCall.Function.Name h.toolMgr.tools).isSome = true
          then some (toolCall.ID, toolCall.Function.Name) else none)
    ∧ (∀ (l : Log) (messageID toolName : String) (parameters : Params),
        (mapGet toolName h.toolMgr.tools = none →
          ∃ e, h.toolMgr.ExecuteTool env l messageID toolName parameters = (l, .error e))
        ∧ (∀ tool, mapGet toolName h.toolMgr.tools = some tool →
          ∃ execution result,
            (h.toolMgr.ExecuteTool env l messageID toolName parameters).2 = .ok result
            ∧ toolExecutionRecords
                (h.toolMgr.ExecuteTool env l messageID toolName parameters).1
              = toolExecutionRecords l ++ [execution])) := by
  refine ⟨?_, ?_, ?_⟩
  · obtain ⟨d, hd, _, _, _, h4, _⟩ :=
      handleToolCalls_delta h env sender toolCalls assistantMessage log
    rw [hd, (observations_append log d).2.2.2.1, List.map_append, h4]
  · intro toolCall
    delta dispatchedRecord dispatch argumentsDecode
    cases env.unmarshalParams toolCall.Function.Arguments with
    | error e => rfl
    | ok p => cases mapGet toolCall.Function.Name h.toolMgr.tools <;> rfl
  · intro l messageID toolName parameters
    constructor
    · intro hreg
      exact ⟨_, ExecuteTool_unregistered _ _ _ _ _ _ hreg⟩
    · intro tool hreg
      refine ⟨executionRecord env l messageID toolName parameters tool,
        executionOutcome env l toolName parameters tool, ?_, ?_⟩
      · rw [ExecuteTool_registered _ _ _ _ _ _ _ hreg]
      · rw [ExecuteTool_registered _ _ _ _ _ _ _ hreg]
        exact (observations_append l _).2.2.2.1

/-- C5, as stated, fails.  When the executor of the registered
`generate_image` tool returns an error, the one text sent for the call is the
fixed image apology, which does not contain the tool name `generate_image`. -/
theorem executor_failure_counterexample :
    mapGet catCall.Function.Name failingHandler.toolMgr.tools = some failingImageTool
    ∧ (failingImageTool.Execute [.now] (some [("prompt", .str "a cat")])).2
        = some "image generation failed: timeout"
    ∧ textsSent (handleToolCalls failingHandler demoEnv "sender" [catCall] "" [])
        = [("sender",
            "Sorry, I couldn't generate the image. Please try again with a different prompt.")]
    ∧ Contains "Sorry, I couldn't generate the image. Please try again with a different prompt."
        "generate_image" = false :=
  ⟨rfl, rfl, rfl, rfl⟩

/-- C5, amended.  For a `generate_image` tool call whose arguments decode,
whose tool is registered and whose executor returns an error, handling the call
sends exactly one text message to the sender, the fixed image apology, sends no
image, and writes one record with `Success = false` and the error text. -/
theorem image_failure_apology (h : Handler) (env : Env) (sender assistantMessage : String)
    (log : Log) (toolCall : ToolCall) (p : Params) (tool : Tool) (e : String)
    (hname : toolCall.Function.Name = "generate_image")
    (hu : env.unmarshalParams toolCall.Function.Arguments = .ok p)
    (hreg : mapGet toolCall.Function.Name h.toolMgr.tools = some tool)
    (herr : (tool.Execute (log ++ [.now]) p).2 = some e) :
    textsSent (handleToolCall h env sender assistantMessage log toolCall)
      = textsSent log ++ [(sender,
          "Sorry, I couldn't generate the image. Please try again with a different prompt.")]
    ∧ imagesSent (handleToolCall h env sender assistantMessage log toolCall) = imagesSent log
    ∧ gatewaySends (handleToolCall h env sender assistantMessage log toolCall)
      = gatewaySends log + 1
    ∧ ∃ execution,
        toolExecutionRecords (handleToolCall h env sender assistantMessage log toolCall)
          = toolExecutionRecords log ++ [execution]
        ∧ execution.Success = false ∧ execution.ErrorMsg = e := by
  have hs : (executionOutcome env log toolCall.Function.Name p tool).Success = false := by
    show (tool.Execute (log ++ [.now]) p).2.isNone = false
    rw [herr]
    rfl
  have hout : handleToolCall h env sender assistantMessage log toolCall
      = log ++ (executionEvents env log toolCall.ID toolCall.Function.Name p tool
          ++ [.sendMessage sender
            "Sorry, I couldn't generate the image. Please try again with a different prompt."]) := by
    delta handleToolCall
    rw [hu]
    dsimp only
    rw [ExecuteTool_registered _ _ _ _ _ _ _ hreg]
    dsimp only
    rw [if_pos hname]
    delta handleImageGenerationResult sendErrorMessage
    dsimp only
    rw [hs]
    exact List.append_assoc _ _ _
  obtain ⟨o1, o2, _, o4, _, o6, _⟩ := observations_append log
    (executionEvents env log toolCall.ID toolCall.Function.Name p tool
      ++ [.sendMessage sender
        "Sorry, I couldn't generate the image. Please try again with a different prompt."])
  rw [hout]
  refine ⟨o1, o2.trans (List.append_nil _), o6,
    executionRecord env log toolCall.ID toolCall.Function.Name p tool, o4, ?_, ?_⟩
  · show (tool.Execute (log ++ [.now]) p).2.isNone = false
    rw [herr]
    rfl
  · delta executionRecord
    dsimp only
    rw [herr]

/-- Witness for C5, amended: the failing image tool on the cat call. -/
theorem image_failure_apology_witness :
    catCall.Function.Name = "generate_image"
    ∧ textsSent (handleToolCall failingHandler demoEnv "sender" "" [] catCall)
      = textsSent [] ++ [("sender",
          "Sorry, I couldn't generate the image. Please try again with a different prompt.")]
    ∧ imagesSent (handleToolCall failingHandler demoEnv "sender" "" [] catCall)
      = imagesSent [] :=
  have hw := image_failure_apology failingHandler demoEnv "sender" "" [] catCall
    (some [("prompt", .str "a cat")]) failingImageTool "image generation failed: timeout"
    rfl rfl rfl rfl
  ⟨rfl, hw.1, hw.2.1⟩

/-- A registered tool other than `generate_image` whose executor fails: the
text sent for the call reports success. -/
theorem other_tool_failure_reports_success :
    (failingWeatherTool.Execute [.now] (some [])).2 = some "upstream 503"
    ∧ textsSent (handleToolCalls weatherHandler demoEnv "sender" [weatherCall] "" [])
        = [("sender", "Tool get_weather executed successfully")] :=
  ⟨rfl, rfl⟩

/-- C6: the code at the failing input.  A tool call whose arguments text does
not decode is skipped without any gateway call (no apology is sent), without
an executor call and without a record, and the next tool call of the batch is
still handled. -/
theorem undecodable_arguments_are_skipped_silently :
    demoEnv.unmarshalParams brokenCall.Function.Arguments
        = .error "unexpected end of JSON input"
    ∧ handleToolCalls demoHandler demoEnv "sender" [brokenCall] "" [] = []
    ∧ textsSent (handleToolCalls demoHandler demoEnv "sender" [brokenCall, catCall] "" []) = []
    ∧ imagesSent (handleToolCalls demoHandler demoEnv "sender" [brokenCall, catCall] "" [])
        = [("sender", "https://x/y.png", "Here's your generated image!")]
    ∧ executorCalls (handleToolCalls demoHandler demoEnv "sender" [brokenCall, catCall] "" [])
        = [("generate_image", some [("prompt", .str "a cat")])] :=
  ⟨rfl, rfl, rfl, rfl, rfl⟩

/-- C7, as stated, fails.  For an unregistered tool name `ExecuteTool` returns
an error and no `ExecutionResult`, so there is no outcome carrying
`Success = false` and `Duration = 0`. -/
theorem unregistered_tool_counterexample :
    mapGet "get_weather" demoHandler.toolMgr.tools = none
    ∧ demoHandler.toolMgr.ExecuteTool demoEnv [] "call_3" "get_weather" (some [])
        = ([], .error "tool 'get_weather' not found")
    ∧ ¬ ∃ r, (demoHandler.toolMgr.ExecuteTool demoEnv [] "call_3" "get_weather" (some [])).2
        = .ok r := by
  refine ⟨rfl, rfl, ?_⟩
  rintro ⟨r, hr⟩
  cases hr

/-- C7, amended.  For every correlation id, every argument map and every tool
name that is not registered, `ExecuteTool` returns no `ExecutionResult` but the
error `tool '<name>' not found`, and it leaves the log unchanged: no executor
is invoked and no record is written. -/
theorem unregistered_tool_returns_error (m : Manager) (env : Env) (log : Log)
    (messageID toolName : String) (parameters : Params)
    (hreg : mapGet toolName m.tools = none) :
    m.ExecuteTool env log messageID toolName parameters
      = (log, .error ("tool '" ++ toolName ++ "' not found")) :=
  ExecuteTool_unregistered m env log messageID toolName parameters hreg

/-- Witness for C7, amended: the unregistered weather tool. -/
theorem unregistered_tool_returns_error_witness :
    mapGet "get_weather" demoHandler.toolMgr.tools = none
    ∧ demoHandler.toolMgr.ExecuteTool demoEnv [.getOrCreateConversation "sender"] "call_3"
        "get_weather" none
      = ([.getOrCreateConversation "sender"], .error ("tool '" ++ "get_weather" ++ "' not found")) :=
  ⟨rfl, unregistered_tool_returns_error demoHandler.toolMgr demoEnv
    [.getOrCreateConversation "sender"] "call_3" "get_weather" none rfl⟩

/-- C8.  On a registered tool `ExecuteTool` returns an `ExecutionResult` and
hands exactly one record to `SaveToolExecution`; the record has `Success = true`
exactly when the executor returned no error, a non-negative `ExecutionTime`
under a non-decreasing clock, the correlation id and the tool name passed in,
and its `Success` and `ExecutionTime` equal the `Success` and `Duration` of the
returned result. -/
theorem execution_record_matches (m : Manager) (env : Env) (log : Log)
    (messageID toolName : String) (parameters : Params) (tool : Tool)
    (hreg : mapGet toolName m.tools = some tool) (hclock : clockNonDecreasing env) :
    ∃ execution result,
      (m.ExecuteTool env log messageID toolName parameters).2 = .ok result
      ∧ toolExecutionRecords (m.ExecuteTool env log messageID toolName parameters).1
          = toolExecutionRecords log ++ [execution]
      ∧ (execution.Success = true ↔ (tool.Execute (log ++ [.now]) parameters).2 = none)
      ∧ 0 ≤ execution.ExecutionTime
      ∧ execution.MessageID = messageID
      ∧ execution.ToolName = toolName
      ∧ execution.Success = result.Success
      ∧ execution.ExecutionTime = result.Duration := by
  have hsince : ∀ t start : GoTime, start.mono ≤ t.mono → 0 ≤ since t start := by
    intro t start hle
    have hd : 0 ≤ t.mono - start.mono := Int.sub_nonneg_of_le hle
    delta since
    dsimp only
    by_cases h1 : t.mono - start.mono > maxInt64
    · rw [if_pos h1]
      decide
    · rw [if_neg h1]
      by_cases h2 : t.mono - start.mono < minInt64
      · exact absurd (Int.lt_of_le_of_lt hd h2) (by decide)
      · rw [if_neg h2]
        exact hd
  refine ⟨executionRecord env log messageID toolName parameters tool,
    executionOutcome env log toolName parameters tool, ?_, ?_, Option.isNone_iff_eq_none,
    Int.tdiv_nonneg (hsince _ _ (hclock log _)) (by decide), rfl, rfl, rfl, rfl⟩
  · rw [ExecuteTool_registered _ _ _ _ _ _ _ hreg]
  · rw [ExecuteTool_registered _ _ _ _ _ _ _ hreg]
    exact (observations_append log _).2.2.2.1

/-- Witness for C8: the image tool under the clock of `demoEnv`, which ticks
once per event. -/
theorem execution_record_matches_witness :
    mapGet "generate_image" demoHandler.toolMgr.tools = some demoImageTool
    ∧ clockNonDecreasing demoEnv
    ∧ ∃ execution result,
      (demoHandler.toolMgr.ExecuteTool demoEnv [] "call_1" "generate_image" none).2 = .ok result
      ∧ toolExecutionRecords
          (demoHandler.toolMgr.ExecuteTool demoEnv [] "call_1" "generate_image" none).1
          = toolExecutionRecords [] ++ [execution]
      ∧ (execution.Success = true ↔ (demoImageTool.Execute ([] ++ [.now]) none).2 = none)
      ∧ 0 ≤ execution.ExecutionTime
      ∧ execution.MessageID = "call_1"
      ∧ execution.ToolName = "generate_image"
      ∧ execution.Success = result.Success
      ∧ execution.ExecutionTime = result.Duration :=
  have hclock : clockNonDecreasing demoEnv := fun l l' =>
    Int.ofNat_le.mpr (Nat.le_trans (Nat.le_add_right _ _)
      (Nat.le_of_eq (List.length_append l l').symm))
  ⟨rfl, hclock, execution_record_matches demoHandler.toolMgr demoEnv [] "call_1"
    "generate_image" none demoImageTool rfl hclock⟩

/-- C9.  The executor invocations made while handling a list of tool calls
are, in order, the tool calls whose arguments decode and whose tool name is
registered, each invoked with its decoded arguments; no failure of an earlier
call removes a later one. -/
theorem executor_calls_in_order (h : Handler) (env : Env) (sender : String)
    (toolCalls : List ToolCall) (assistantMessage : String) (log : Log) :
    executorCalls (handleToolCalls h env sender toolCalls assistantMessage log)
      = executorCalls log ++ toolCalls.filterMap (dispatchedCall h env)
    ∧ (executorCalls (handleToolCalls h env sender toolCalls assistantMessage log)).map Prod.fst
      = (executorCalls log).map Prod.fst
        ++ (toolCalls.filter (fun toolCall => argumentsDecode env toolCall
              && (mapGet toolCall.Function.Name h.toolMgr.tools).isSome)).map
            (fun toolCall => toolCall.Function.Name)
    ∧ (∀ toolCall, dispatchedCall h env toolCall
        = match env.unmarshalParams toolCall.Function.Arguments with
          | .error _ => none
          | .ok p =>
            if (mapGet toolCall.Function.Name h.toolMgr.tools).isSome = true
            then some (toolCall.Function.Name, p) else none) := by
  have hfirst : executorCalls (handleToolCalls h env sender toolCalls assistantMessage log)
      = executorCalls log ++ toolCalls.filterMap (dispatchedCall h env) := by
    obtain ⟨d, hd, _, _, h3, _⟩ :=
      handleToolCalls_delta h env sender toolCalls assistantMessage log
    rw [hd, (observations_append log d).2.2.1, h3]
  have hmap : ∀ calls : List ToolCall,
      (calls.filterMap (dispatchedCall h env)).map Prod.fst
        = (calls.filter (fun toolCall => argumentsDecode env toolCall
              && (mapGet toolCall.Function.Name h.toolMgr.tools).isSome)).map
            (fun toolCall => toolCall.Function.Name) := by
    delta dispatchedCall dispatch argumentsDecode
    intro calls
    induction calls with
    | nil => rfl
    | cons toolCall rest ih =>
      rw [List.filterMap_cons, List.filter_cons]
      cases env.unmarshalParams toolCall.Function.Arguments with
      | error e => exact ih
      | ok p =>
        cases mapGet toolCall.Function.Name h.toolMgr.tools with
        | none => exact ih
        | some tool => exact congrArg (List.cons toolCall.Function.Name) ih
  refine ⟨hfirst, ?_, ?_⟩
  · rw [hfirst, List.map_append, hmap]
  · intro toolCall
    delta dispatchedCall dispatch
    cases env.unmarshalParams toolCall.Function.Arguments with
    | error e => rfl
    | ok p => cases mapGet toolCall.Function.Name h.toolMgr.tools <;> rfl

/-- C10.  For a `generate_image` tool call whose arguments decode, whose tool
is registered, whose executor succeeds and whose result decodes to an image
result `r`, handling the call makes exactly one `SendImage` call, to the sender
with `r.ImageURL` and with the caption equal to the model text when that text
is non-empty and to the generic caption otherwise; when that send succeeds no
text message is sent for the call; and one record with `Success = true` is
written. -/
theorem image_success_sends_image (h : Handler) (env : Env) (sender assistantMessage : String)
    (log : Log) (toolCall : ToolCall) (p : Params) (tool : Tool) (v : Value)
    (r : ImageGenerationResult)
    (hname : toolCall.Function.Name = "generate_image")
    (hu : env.unmarshalParams toolCall.Function.Arguments = .ok p)
    (hreg : mapGet toolCall.Function.Name h.toolMgr.tools = some tool)
    (hexec : tool.Execute (log ++ [.now]) p = (v, none))
    (hdec : env.decodeImageResult v = .ok r) :
    imagesSent (handleToolCall h env sender assistantMessage log toolCall)
      = imagesSent log ++ [(sender, r.ImageURL,
          if assistantMessage = "" then "Here's your generated image!" else assistantMessage)]
    ∧ (env.sendImage (log ++ executionEvents env log toolCall.ID toolCall.Function.Name p tool)
          sender r.ImageURL
          (if assistantMessage = "" then "Here's your generated image!" else assistantMessage)
        = none →
      textsSent (handleToolCall h env sender assistantMessage log toolCall) = textsSent log)
    ∧ ∃ execution,
        toolExecutionRecords (handleToolCall h env sender assistantMessage log toolCall)
          = toolExecutionRecords log ++ [execution]
        ∧ execution.Success = true := by
  have hstep : handleToolCall h env sender assistantMessage log toolCall
      = handleImageGenerationResult env
          (log ++ executionEvents env log toolCall.ID toolCall.Function.Name p tool) sender
          (executionOutcome env log toolCall.Function.Name p tool) assistantMessage := by
    delta handleToolCall
    rw [hu]
    dsimp only
    rw [ExecuteTool_registered _ _ _ _ _ _ _ hreg]
    dsimp only
    rw [if_pos hname]
  have hsucc : (executionOutcome env log toolCall.Function.Name p tool).Success = true := by
    show (tool.Execute (log ++ [.now]) p).2.isNone = true
    rw [hexec]
    rfl
  have hres : (executionOutcome env log toolCall.Function.Name p tool).Result = v := by
    show (tool.Execute (log ++ [.now]) p).1 = v
    rw [hexec]
  have hrecord : (executionRecord env log toolCall.ID toolCall.Function.Name p tool).Success
      = true := hsucc
  rw [hstep]
  rcases handleImageGenerationResult_cases env
      (log ++ executionEvents env log toolCall.ID toolCall.Function.Name p tool) sender
      (executionOutcome env log toolCall.Function.Name p tool) assistantMessage with
    ⟨hf, _⟩ | ⟨_, e, he, _⟩ | ⟨_, r', e, hd, hsend, heq⟩ | ⟨_, r', hd, hsend, heq⟩
  · rw [hsucc] at hf
    cases hf
  · rw [hres, hdec] at he
    cases he
  · rw [hres, hdec] at hd
    cases hd
    rw [heq, List.append_assoc]
    obtain ⟨_, o2, _, o4, _⟩ := observations_append log
      (executionEvents env log toolCall.ID toolCall.Function.Name p tool
        ++ [.sendImage sender r.ImageURL
            (if assistantMessage = "" then "Here's your generated image!" else assistantMessage),
          .sendMessage sender "Sorry, I couldn't send the generated image."])
    exact ⟨o2, fun hnone => Option.noConfusion (hnone.symm.trans hsend),
      executionRecord env log toolCall.ID toolCall.Function.Name p tool, o4, hrecord⟩
  · rw [hres, hdec] at hd
    cases hd
    rw [heq, List.append_assoc]
    obtain ⟨o1, o2, _, o4, _⟩ := observations_append log
      (executionEvents env log toolCall.ID toolCall.Function.Name p tool
        ++ [.sendImage sender r.ImageURL
            (if assistantMessage = "" then "Here's your generated image!" else assistantMessage)])
    exact ⟨o2, fun _ => o1.trans (List.append_nil _),
      executionRecord env log toolCall.ID toolCall.Function.Name p tool, o4, hrecord⟩

/-- Witness for C10: the scenario of the specification, an image of a cat with
no model text. -/
theorem image_success_sends_image_witness :
    catCall.Function.Name = "generate_image"
    ∧ demoImageTool.Execute ([] ++ [.now]) (some [("prompt", .str "a cat")])
        = (.obj [("image_url", .str "https://x/y.png")], none)
    ∧ imagesSent (handleToolCall demoHandler demoEnv "sender" "" [] catCall)
        = imagesSent [] ++ [("sender", "https://x/y.png",
            if "" = "" then "Here's your generated image!" else "")]
    ∧ textsSent (handleToolCall demoHandler demoEnv "sender" "" [] catCall) = textsSent [] :=
  have hw := image_success_sends_image demoHandler demoEnv "sender" "" [] catCall
    (some [("prompt", .str "a cat")]) demoImageTool (.obj [("image_url", .str "https://x/y.png")])
    { ImageURL := "https://x/y.png", RevisedPrompt := "" } rfl rfl rfl rfl rfl
  ⟨rfl, rfl, hw.1, hw.2.1 rfl⟩

/-! ## Claims on the reply and on the failure of the completion call -/

/-- C11.  In a turn whose completion response has a top choice without tool
calls, the turn makes exactly one `SendMessage` call, to the sender and with
the content of the top choice unchanged; it makes no `SendImage` call, invokes
no executor and writes no tool-execution record. -/
theorem direct_reply_is_verbatim (h : Handler) (env : Env) (log : Log) (sender message : String)
    (conversation : Conversation) (response : ChatCompletionResponse) (choice : Choice)
    (rest : List Choice) (hm : ¬ isBlank message)
    (hc : env.getOrCreateConversation log sender = .ok conversation)
    (hr : turnResponse h env log sender message = .ok response)
    (hch : response.Choices = choice :: rest)
    (hnil : choice.Message.ToolCalls = []) :
    textsSent (processMessage h env log sender message)
      = textsSent log ++ [(sender, choice.Message.Content)]
    ∧ imagesSent (processMessage h env log sender message) = imagesSent log
    ∧ executorCalls (processMessage h env log sender message) = executorCalls log
    ∧ toolExecutionRecords (processMessage h env log sender message)
        = toolExecutionRecords log := by
  rw [processMessage_eq h env log sender message conversation hm hc, hr]
  dsimp only
  rw [hch]
  dsimp only
  have hlen : ¬ ([] : List ToolCall).length > 0 := Nat.lt_irrefl 0
  rw [hnil, if_neg hlen]
  obtain ⟨p1, p2, p3, p4, _⟩ := observations_persistTurn env
    (contextLog h env log sender message ++ [.sendMessage sender choice.Message.Content])
    sender message conversation choice.Message.Content
  obtain ⟨s1, s2, s3, s4, _⟩ := observations_sendMessage (contextLog h env log sender message)
    sender choice.Message.Content
  obtain ⟨c1, c2, c3, c4, _⟩ := observations_contextLog h env log sender message
  rw [p1, p2, p3, p4, s1, s2, s3, s4, c1, c2, c3, c4]
  exact ⟨rfl, rfl, rfl, rfl⟩

/-- Witness for C11: the completion service answers `Hello!` without a tool
call. -/
theorem direct_reply_is_verbatim_witness :
    ¬ isBlank "hi"
    ∧ textsSent (processMessage demoHandler directEnv [] "sender" "hi")
        = textsSent [] ++ [("sender", "Hello!")]
    ∧ imagesSent (processMessage demoHandler directEnv [] "sender" "hi") = imagesSent [] :=
  have hw := direct_reply_is_verbatim demoHandler directEnv [] "sender" "hi"
    { JID := "sender", LastMessage := "", MessageCount := 0 }
    { Choices := [{ Message := { Content := "Hello!", ToolCalls := [] } }] }
    { Message := { Content := "Hello!", ToolCalls := [] } } []
    (by delta isBlank; decide) rfl rfl rfl rfl
  ⟨by delta isBlank; decide, hw.1, hw.2.1⟩

/-- C12.  When the completion call returns an error, or a response without
choices, the turn ends right after one `SendMessage` call to the sender: the
log is the context stage followed by that call.  The text is a fixed apology,
one for the error and one for the empty response, whatever the inbound message
and the error; no image is sent and no executor is invoked. -/
theorem completion_failure_apology (h : Handler) (env : Env) (log : Log)
    (sender message : String) (conversation : Conversation) (hm : ¬ isBlank message)
    (hc : env.getOrCreateConversation log sender = .ok conversation) :
    (∀ e, turnResponse h env log sender message = .error e →
      processMessage h env log sender message
        = contextLog h env log sender message ++ [.sendMessage sender
            "Sorry, I'm having trouble processing your message right now."]
      ∧ textsSent (processMessage h env log sender message)
        = textsSent log
            ++ [(sender, "Sorry, I'm having trouble processing your message right now.")]
      ∧ imagesSent (processMessage h env log sender message) = imagesSent log
      ∧ executorCalls (processMessage h env log sender message) = executorCalls log)
    ∧ (∀ response, turnResponse h env log sender message = .ok response →
      response.Choices = [] →
      processMessage h env log sender message
        = contextLog h env log sender message ++ [.sendMessage sender
            "Sorry, I couldn't generate a response."]
      ∧ textsSent (processMessage h env log sender message)
        = textsSent log ++ [(sender, "Sorry, I couldn't generate a response.")]
      ∧ imagesSent (processMessage h env log sender message) = imagesSent log
      ∧ executorCalls (processMessage h env log sender message) = executorCalls log) := by
  obtain ⟨c1, c2, c3, _⟩ := observations_contextLog h env log sender message
  have hobs : ∀ text,
      textsSent (contextLog h env log sender message ++ [.sendMessage sender text])
        = textsSent log ++ [(sender, text)]
      ∧ imagesSent (contextLog h env log sender message ++ [.sendMessage sender text])
        = imagesSent log
      ∧ executorCalls (contextLog h env log sender message ++ [.sendMessage sender text])
        = executorCalls log := by
    intro text
    obtain ⟨s1, s2, s3, _⟩ := observations_sendMessage (contextLog h env log sender message)
      sender text
    rw [s1, s2, s3, c1, c2, c3]
    exact ⟨rfl, rfl, rfl⟩
  constructor
  · intro e he
    have hout : processMessage h env log sender message
        = contextLog h env log sender message ++ [.sendMessage sender
            "Sorry, I'm having trouble processing your message right now."] := by
      rw [processMessage_eq h env log sender message conversation hm hc, he]
    rw [hout]
    exact ⟨rfl, hobs _⟩
  · intro response hr hch
    have hout : processMessage h env log sender message
        = contextLog h env log sender message ++ [.sendMessage sender
            "Sorry, I couldn't generate a response."] := by
      rw [processMessage_eq h env log sender message conversation hm hc, hr]
      dsimp only
      rw [hch]
    rw [hout]
    exact ⟨rfl, hobs _⟩

/-- Witness for C12: the completion service fails. -/
theorem completion_failure_apology_witness :
    ¬ isBlank "hi"
    ∧ turnResponse demoHandler completionDownEnv [] "sender" "hi"
        = .error "OpenAI request failed: timeout"
    ∧ textsSent (processMessage demoHandler completionDownEnv [] "sender" "hi")
        = textsSent []
            ++ [("sender", "Sorry, I'm having trouble processing your message right now.")] :=
  ⟨by delta isBlank; decide, rfl,
    ((completion_failure_apology demoHandler completionDownEnv [] "sender" "hi"
      { JID := "sender", LastMessage := "", MessageCount := 0 }
      (by delta isBlank; decide) rfl).1 "OpenAI request failed: timeout" rfl).2.1⟩

/-! ## Claims on persistence -/

/-- C13, as stated, fails.  For a sender contacted for the first time, with a
store that starts empty and a completion call that fails, the turn sends the
apology and the store ends with a conversation row for the sender: the call of
`GetOrCreateConversation` that opens the turn created it. -/
theorem failed_turn_store_counterexample :
    ¬ isBlank "hi"
    ∧ turnResponse demoHandler (storeEnv completionDownEnv emptyStore) [] "sender" "hi"
        = .error "OpenAI request failed: timeout"
    ∧ emptyStore.conversations = []
    ∧ (emptyStore.after
        (processMessage demoHandler (storeEnv completionDownEnv emptyStore) [] "sender"
          "hi")).conversations
        = [{ JID := "sender", LastMessage := "", MessageCount := 0 }] :=
  ⟨by delta isBlank; decide, rfl, rfl, rfl⟩

/-- C13, amended.  When the completion call returns an error or a response
without choices, the turn makes no `SaveMessage`, no `UpdateConversation` and
no `SaveToolExecution` call.  Its only effect on the store is that of the
`GetOrCreateConversation` call that opens the turn: the messages and the tool
executions are unchanged, the store is unchanged when the sender already has a
conversation, and otherwise a conversation row with `MessageCount` 0 has been
added for the sender. -/
theorem failed_turn_store_effect (h : Handler) (env : Env) (log : Log)
    (sender message : String) (conversation : Conversation) (s : Store)
    (hm : ¬ isBlank message)
    (hc : env.getOrCreateConversation log sender = .ok conversation)
    (hfail : (∃ e, turnResponse h env log sender message = .error e)
      ∨ ∃ response, turnResponse h env log sender message = .ok response
          ∧ response.Choices = []) :
    bookkeeping (processMessage h env log sender message) = bookkeeping log
    ∧ toolExecutionRecords (processMessage h env log sender message)
        = toolExecutionRecords log
    ∧ s.after (processMessage h env log sender message)
        = (DB.GetOrCreateConversation (s.after log) sender).1
    ∧ (s.after (processMessage h env log sender message)).messages = (s.after log).messages
    ∧ (s.after (processMessage h env log sender message)).toolExecutions
        = (s.after log).toolExecutions
    ∧ ((∃ c ∈ (s.after log).conversations, c.JID = sender) →
        s.after (processMessage h env log sender message) = s.after log)
    ∧ ((∀ c ∈ (s.after log).conversations, c.JID ≠ sender) →
        (s.after (processMessage h env log sender message)).conversations
          = (s.after log).conversations
            ++ [{ JID := sender, LastMessage := "", MessageCount := 0 }]) := by
  have hout : ∃ text, processMessage h env log sender message
      = contextLog h env log sender message ++ [.sendMessage sender text] := by
    rw [processMessage_eq h env log sender message conversation hm hc]
    rcases hfail with ⟨e, he⟩ | ⟨response, hr, hch⟩
    · rw [he]
      exact ⟨"Sorry, I'm having trouble processing your message right now.", rfl⟩
    · rw [hr]
      dsimp only
      rw [hch]
      exact ⟨"Sorry, I couldn't generate a response.", rfl⟩
  obtain ⟨text, hout⟩ := hout
  have hafter : s.after (contextLog h env log sender message ++ [.sendMessage sender text])
      = (DB.GetOrCreateConversation (s.after log) sender).1 := by
    delta contextLog
    rw [List.append_assoc]
    exact (List.foldl_append _ _ _ _).trans rfl
  obtain ⟨_, _, _, c4, c5, _⟩ := observations_contextLog h env log sender message
  obtain ⟨_, _, _, s4, s5, _⟩ := observations_sendMessage (contextLog h env log sender message)
    sender text
  rw [hout, hafter, s4, s5, c4, c5]
  refine ⟨rfl, rfl, rfl, ?_, ?_, ?_, ?_⟩
  · delta DB.GetOrCreateConversation
    cases (s.after log).conversations.find? (fun c => c.JID == sender) <;> rfl
  · delta DB.GetOrCreateConversation
    cases (s.after log).conversations.find? (fun c => c.JID == sender) <;> rfl
  · intro hex
    delta DB.GetOrCreateConversation
    cases hf : (s.after log).conversations.find? (fun c => c.JID == sender) with
    | some c => rfl
    | none =>
      obtain ⟨c, hmem, hjid⟩ := hex
      exact absurd (decide_eq_true hjid) (List.find?_eq_none.mp hf c hmem)
  · intro hnew
    delta DB.GetOrCreateConversation
    cases hf : (s.after log).conversations.find? (fun c => c.JID == sender) with
    | none => rfl
    | some c =>
      have hfound := List.find?_some hf
      have hp : (c.JID == sender) = true := hfound
      exact absurd (of_decide_eq_true hp) (hnew c (List.mem_of_find?_eq_some hf))

/-- Witness for C13, amended: the sender already has a conversation and the
completion call fails; the store is unchanged. -/
theorem failed_turn_store_effect_witness :
    ¬ isBlank "hi"
    ∧ (storeEnv completionDownEnv knownStore).getOrCreateConversation [] "sender"
        = .ok { JID := "sender", LastMessage := "hello", MessageCount := 3 }
    ∧ knownStore.after
        (processMessage demoHandler (storeEnv completionDownEnv knownStore) [] "sender" "hi")
        = knownStore.after [] :=
  ⟨by delta isBlank; decide, rfl,
    (failed_turn_store_effect demoHandler (storeEnv completionDownEnv knownStore) [] "sender"
      "hi" { JID := "sender", LastMessage := "hello", MessageCount := 3 } knownStore
      (by delta isBlank; decide) rfl
      (Or.inl ⟨"OpenAI request failed: timeout", rfl⟩)).2.2.2.2.2.1
      ⟨{ JID := "sender", LastMessage := "hello", MessageCount := 3 },
        List.mem_singleton.mpr rfl, rfl⟩⟩

/-! ## The closing writes -/

/-- C15.  When `GetMessages` returns an error the turn goes on: the completion
service is called once, with the system message followed by the inbound text as
a user message, and the whole turn makes exactly the calls it makes when
`GetMessages` answers with no stored message. -/
theorem history_failure_degrades (h : Handler) (env : Env) (log : Log)
    (sender message : String) (conversation : Conversation) (e : String)
    (hm : ¬ isBlank message)
    (hc : env.getOrCreateConversation log sender = .ok conversation)
    (herr : env.getMessages (log ++ [.getOrCreateConversation sender]) sender 10 = .error e) :
    completionCalls (processMessage h env log sender message)
      = completionCalls log ++ [[systemMessage, { Role := "user", Content := message }]]
    ∧ processMessage h env log sender message
      = processMessage h { env with getMessages := fun _ _ _ => .ok [] } log sender message := by
  have hirr : ∀ (toolCalls : List ToolCall) (assistantMessage : String) (l : Log),
      handleToolCalls h { env with getMessages := fun _ _ _ => .ok [] } sender toolCalls
          assistantMessage l
        = handleToolCalls h env sender toolCalls assistantMessage l := by
    intro toolCalls assistantMessage
    induction toolCalls with
    | nil => exact fun _ => rfl
    | cons toolCall rest ih => exact fun l => ih _
  constructor
  · rw [(processMessage_observations h env log sender message conversation hm hc).1]
    delta turnHistory
    rw [herr]
    rfl
  · delta processMessage
    dsimp only
    rw [herr, if_neg (fun ht => hm ((TrimSpace_eq_empty_iff message).mp ht)),
      if_neg (fun ht => hm ((TrimSpace_eq_empty_iff message).mp ht)), hc]
    dsimp only
    cases env.generateResponse
        (log ++ [.getOrCreateConversation sender] ++ [.getMessages sender 10])
        (buildMessages [] message) h.toolMgr.GetAvailableTools with
    | error e => rfl
    | ok response =>
      dsimp only
      cases response.Choices with
      | nil => rfl
      | cons choice rest =>
        dsimp only
        rw [hirr]
        rfl

/-- Witness for C15: the store fails to read the messages and the completion
service still gets the system message and the new message. -/
theorem history_failure_degrades_witness :
    ¬ isBlank "hi"
    ∧ historyDownEnv.getMessages ([] ++ [.getOrCreateConversation "sender"]) "sender" 10
        = .error "database is locked"
    ∧ completionCalls (processMessage demoHandler historyDownEnv [] "sender" "hi")
      = completionCalls [] ++ [[systemMessage, { Role := "user", Content := "hi" }]] :=
  ⟨by delta isBlank; decide, rfl,
    (history_failure_degrades demoHandler historyDownEnv [] "sender" "hi"
      { JID := "sender", LastMessage := "", MessageCount := 0 } "database is locked"
      (by delta isBlank; decide) rfl rfl).1⟩

/-- C16, as stated, fails.  When `GetOrCreateConversation` fails the turn ends
there: the completion service is not called and the sender gets no message. -/
theorem storage_failure_counterexample :
    ¬ isBlank "draw a cat"
    ∧ storeDownEnv.getOrCreateConversation [] "sender" = .error "database is locked"
    ∧ processMessage demoHandler storeDownEnv [] "sender" "draw a cat"
        = [.getOrCreateConversation "sender"]
    ∧ completionCalls (processMessage demoHandler storeDownEnv [] "sender" "draw a cat") = []
    ∧ gatewaySends (processMessage demoHandler storeDownEnv [] "sender" "draw a cat") = 0 :=
  ⟨by delta isBlank; decide, rfl, rfl, rfl, rfl⟩

/-- C16, amended.  For a message that is not whitespace-only: a failure of
`GetOrCreateConversation` ends the turn right after that call, with no
completion call and no gateway call; a failure of `GetMessages` does not end
the turn, the completion service is called once with the empty-history
sequence, and the sender gets exactly one gateway call when the completion call
fails, returns no choice or returns a top choice without tool calls, and
otherwise at least one gateway call per tool call whose arguments decode. -/
theorem storage_failure_amended (h : Handler) (env : Env) (log : Log)
    (sender message : String) (hm : ¬ isBlank message) :
    (∀ e, env.getOrCreateConversation log sender = .error e →
      processMessage h env log sender message = log ++ [.getOrCreateConversation sender])
    ∧ (∀ conversation e, env.getOrCreateConversation log sender = .ok conversation →
      env.getMessages (log ++ [.getOrCreateConversation sender]) sender 10 = .error e →
      completionCalls (processMessage h env log sender message)
        = completionCalls log ++ [[systemMessage, { Role := "user", Content := message }]]
      ∧ (∀ e', turnResponse h env log sender message = .error e' →
        gatewaySends (processMessage h env log sender message) = gatewaySends log + 1)
      ∧ (∀ response, turnResponse h env log sender message = .ok response →
        response.Choices = [] →
        gatewaySends (processMessage h env log sender message) = gatewaySends log + 1)
      ∧ (∀ response choice rest, turnResponse h env log sender message = .ok response →
        response.Choices = choice :: rest →
        (choice.Message.ToolCalls = [] →
          gatewaySends (processMessage h env log sender message) = gatewaySends log + 1)
        ∧ gatewaySends log + choice.Message.ToolCalls.countP (argumentsDecode env)
            ≤ gatewaySends (processMessage h env log sender message))) := by
  constructor
  · intro e he
    exact (processMessage_stops h env log sender message).2 hm e he
  · intro conversation e hc herr
    obtain ⟨hcompl, hg1, hg2, hg3⟩ :=
      processMessage_observations h env log sender message conversation hm hc
    refine ⟨?_, hg1, hg2, fun response choice rest hr hch => ?_⟩
    · rw [hcompl]
      delta turnHistory
      rw [herr]
      rfl
    · have hx := hg3 response choice rest hr hch
      refine ⟨hx.1, ?_⟩
      by_cases hnil : choice.Message.ToolCalls = []
      · rw [hx.1 hnil, hnil]
        exact Nat.le_succ _
      · exact (hx.2 hnil).2.2

/-- Witness for C16, amended: the store fails to read the messages, the
completion service answers with a text, and the sender gets one message. -/
theorem storage_failure_amended_witness :
    ¬ isBlank "hi"
    ∧ completionCalls (processMessage demoHandler historyDownEnv [] "sender" "hi")
        = completionCalls [] ++ [[systemMessage, { Role := "user", Content := "hi" }]]
    ∧ gatewaySends (processMessage demoHandler historyDownEnv [] "sender" "hi")
        = gatewaySends [] + 1 :=
  have hw := (storage_failure_amended demoHandler historyDownEnv [] "sender" "hi"
    (by delta isBlank; decide)).2
    { JID := "sender", LastMessage := "", MessageCount := 0 } "database is locked" rfl rfl
  ⟨by delta isBlank; decide, hw.1,
    (hw.2.2.2 { Choices := [{ Message := { Content := "Hello!", ToolCalls := [] } }] }
      { Message := { Content := "Hello!", ToolCalls := [] } } [] rfl rfl).1 rfl⟩

/-- C17.  On a registered tool `ExecuteTool` calls the executor once and
`SaveToolExecution` once, whatever the executor returns, and the log and the
returned pair of result and error are the same for every answer of
`SaveToolExecution`, success or failure. -/
theorem record_write_is_best_effort (m : Manager) (env : Env) (log : Log)
    (messageID toolName : String) (parameters : Params) (tool : Tool)
    (hreg : mapGet toolName m.tools = some tool) :
    (∃ execution,
      toolExecutionRecords (m.ExecuteTool env log messageID toolName parameters).1
        = toolExecutionRecords log ++ [execution])
    ∧ executorCalls (m.ExecuteTool env log messageID toolName parameters).1
        = executorCalls log ++ [(toolName, parameters)]
    ∧ (∀ save : Log → ToolExecution → Option String,
      m.ExecuteTool { env with saveToolExecution := save } log messageID toolName parameters
        = m.ExecuteTool env log messageID toolName parameters)
    ∧ ∃ result, (m.ExecuteTool env log messageID toolName parameters).2 = .ok result := by
  rw [ExecuteTool_registered _ _ _ _ _ _ _ hreg]
  refine ⟨⟨executionRecord env log messageID toolName parameters tool,
    (observations_append log _).2.2.2.1⟩, (observations_append log _).2.2.1, ?_, _, rfl⟩
  intro save
  rw [ExecuteTool_registered _ _ _ _ _ _ _ hreg]
  rfl

/-- Witness for C17: the image tool with a store that refuses the record. -/
theorem record_write_is_best_effort_witness :
    mapGet "generate_image" demoHandler.toolMgr.tools = some demoImageTool
    ∧ demoHandler.toolMgr.ExecuteTool
        { demoEnv with saveToolExecution := fun _ _ => some "database is locked" } []
        "call_1" "generate_image" none
      = demoHandler.toolMgr.ExecuteTool demoEnv [] "call_1" "generate_image" none :=
  ⟨rfl, (record_write_is_best_effort demoHandler.toolMgr demoEnv [] "call_1" "generate_image"
    none demoImageTool rfl).2.2.1 (fun _ _ => some "database is locked")⟩

/-! ## Claims on the registry -/

/-- C18.  After `RegisterTool(a)` and then `RegisterTool(b)` with the same
name, the name is bound to `b`: an `ExecuteTool` call with that name runs the
executor of `b` once and returns the outcome built from what `b` returns,
whatever `a` is.  The second registration leaves the list of registered names
as it was, and every other name keeps its tool and its `ExecuteTool`
behaviour. -/
theorem register_same_name_replaces (m : Manager) (a b : Tool) (env : Env) (log : Log)
    (messageID : String) (parameters : Params) (hname : a.Name = b.Name) :
    mapGet b.Name ((m.RegisterTool a).RegisterTool b).tools = some b
    ∧ ((m.RegisterTool a).RegisterTool b).ExecuteTool env log messageID b.Name parameters
        = (log ++ [.now, .toolExecute b.Name parameters, .now,
              .saveToolExecution (executionRecord env log messageID b.Name parameters b)],
            .ok (executionOutcome env log b.Name parameters b))
    ∧ (executionOutcome env log b.Name parameters b).Result
        = (b.Execute (log ++ [.now]) parameters).1
    ∧ (executionOutcome env log b.Name parameters b).Success
        = (b.Execute (log ++ [.now]) parameters).2.isNone
    ∧ ((m.RegisterTool a).RegisterTool b).tools.map Prod.fst
        = (m.RegisterTool a).tools.map Prod.fst
    ∧ ((m.RegisterTool a).RegisterTool b).tools.length = (m.RegisterTool a).tools.length
    ∧ (∀ k, k ≠ b.Name →
        mapGet k ((m.RegisterTool a).RegisterTool b).tools = mapGet k (m.RegisterTool a).tools
        ∧ ∀ (env' : Env) (log' : Log) (messageID' : String) (parameters' : Params),
          ((m.RegisterTool a).RegisterTool b).ExecuteTool env' log' messageID' k parameters'
            = (m.RegisterTool a).ExecuteTool env' log' messageID' k parameters') := by
  have hget : mapGet b.Name ((m.RegisterTool a).RegisterTool b).tools = some b :=
    (mapGet_mapSet _ _ _ _).trans (if_pos rfl)
  have hbound : (mapGet b.Name (m.RegisterTool a).tools).isSome = true := by
    show (mapGet b.Name (mapSet a.Name a m.tools)).isSome = true
    rw [mapGet_mapSet, if_pos hname]
    rfl
  have hkeys : ((m.RegisterTool a).RegisterTool b).tools.map Prod.fst
      = (m.RegisterTool a).tools.map Prod.fst :=
    (keys_mapSet b.Name b (m.RegisterTool a).tools).trans (if_pos hbound)
  have hother : ∀ k, k ≠ b.Name →
      mapGet k ((m.RegisterTool a).RegisterTool b).tools
        = mapGet k (m.RegisterTool a).tools :=
    fun k hk => (mapGet_mapSet _ _ _ _).trans (if_neg (fun hcontra => hk hcontra.symm))
  refine ⟨hget, ?_, rfl, rfl, hkeys, ?_, ?_⟩
  · rw [ExecuteTool_registered _ _ _ _ _ _ _ hget]
    rfl
  · have hlen := congrArg List.length hkeys
    rw [List.length_map, List.length_map] at hlen
    exact hlen
  · intro k hk
    refine ⟨hother k hk, fun env' log' messageID' parameters' => ?_⟩
    delta Manager.ExecuteTool
    rw [hother k hk]

/-- Witness for C18: the failing image tool replaced by the working one under
the same name. -/
theorem register_same_name_replaces_witness :
    failingImageTool.Name = demoImageTool.Name
    ∧ mapGet demoImageTool.Name
        ((NewManager.RegisterTool failingImageTool).RegisterTool demoImageTool).tools
        = some demoImageTool
    ∧ ((NewManager.RegisterTool failingImageTool).RegisterTool demoImageTool).tools.length
        = (NewManager.RegisterTool failingImageTool).tools.length :=
  have hw := register_same_name_replaces NewManager failingImageTool demoImageTool demoEnv []
    "call_1" none rfl
  ⟨rfl, hw.1, hw.2.2.2.2.2.1⟩

/-- C19, as stated, fails.  A registered tool with another name than
`generate_image` gets no descriptor, and a tool registered as `generate_image`
with a description of its own is advertised with the fixed description. -/
theorem available_tools_counterexample :
    (registerAll [failingWeatherTool] NewManager).tools.map Prod.fst = ["get_weather"]
    ∧ (registerAll [failingWeatherTool] NewManager).GetAvailableTools = []
    ∧ customImageTool.Description = "Draw pictures"
    ∧ (registerAll [customImageTool] NewManager).GetAvailableTools.map
        (fun d => (d.Name, d.Description))
        = [("generate_image", "Generate an image based on text prompt")] :=
  ⟨rfl, rfl, rfl, rfl⟩

/-- C19, amended.  For every sequence of `RegisterTool` calls from an empty
registry, `GetAvailableTools` returns the one fixed `generate_image` descriptor
when a tool of that name was registered and nothing otherwise, whatever the
descriptions of the registered tools and in whatever order the map is walked;
tools of other names get no descriptor. -/
theorem available_tools_amended (tools : List Tool) :
    (registerAll tools NewManager).GetAvailableTools
      = (if tools.any (fun t => t.Name == "generate_image") then [generateImageToolDef]
          else [])
    ∧ ∀ entries : List (String × Tool), entries.Perm (registerAll tools NewManager).tools →
        descriptorsOf entries = (registerAll tools NewManager).GetAvailableTools := by
  have hnone : ∀ (k : String) (l : List (String × Tool)),
      mapGet k l = none → k ∉ l.map Prod.fst := by
    intro k l
    induction l with
    | nil => exact fun _ => List.not_mem_nil _
    | cons kv rest ih =>
      obtain ⟨a, b⟩ := kv
      show (if a = k then some b else mapGet k rest) = none → k ∉ a :: rest.map Prod.fst
      by_cases hk : a = k
      · rw [if_pos hk]
        exact fun hcontra => Option.noConfusion hcontra
      · rw [if_neg hk]
        exact fun hrest hmem =>
          (List.mem_cons.mp hmem).elim (fun e => hk e.symm) (ih hrest)
  have hmem : ∀ (k : String) (v : Tool) (l : List (String × Tool)) (kv : String × Tool),
      kv ∈ mapSet k v l → kv = (k, v) ∨ kv ∈ l := by
    intro k v l kv
    induction l with
    | nil => exact fun hin => Or.inl (List.mem_singleton.mp hin)
    | cons entry rest ih =>
      obtain ⟨a, b⟩ := entry
      show kv ∈ (if a = k then (k, v) :: rest else (a, b) :: mapSet k v rest) → _
      by_cases hk : a = k
      · rw [if_pos hk]
        exact fun hin => (List.mem_cons.mp hin).elim Or.inl
          (fun hx => Or.inr (List.mem_cons_of_mem _ hx))
      · rw [if_neg hk]
        exact fun hin => (List.mem_cons.mp hin).elim
          (fun hx => Or.inr (List.mem_cons.mpr (Or.inl hx)))
          (fun hx => (ih hx).elim Or.inl (fun hy => Or.inr (List.mem_cons_of_mem _ hy)))
  have hstep : ∀ (tool : Tool) (l : List (String × Tool)),
      (l.map Prod.fst).Nodup ∧ (∀ kv ∈ l, kv.1 = kv.2.Name) →
      ((mapSet tool.Name tool l).map Prod.fst).Nodup
        ∧ ∀ kv ∈ mapSet tool.Name tool l, kv.1 = kv.2.Name := by
    intro tool l hwf
    constructor
    · rw [keys_mapSet]
      cases hget : mapGet tool.Name l with
      | some t => exact hwf.1
      | none =>
        exact List.pairwise_append.mpr ⟨hwf.1, List.pairwise_singleton _ _,
          fun x hx y hy hxy => hnone _ _ hget ((List.mem_singleton.mp hy) ▸ hxy ▸ hx)⟩
    · intro kv hin
      rcases hmem _ _ _ _ hin with hkv | hkv
      · rw [hkv]
      · exact hwf.2 kv hkv
  have hwf : ∀ (tools : List Tool) (m : Manager),
      (m.tools.map Prod.fst).Nodup ∧ (∀ kv ∈ m.tools, kv.1 = kv.2.Name) →
      ((registerAll tools m).tools.map Prod.fst).Nodup
        ∧ ∀ kv ∈ (registerAll tools m).tools, kv.1 = kv.2.Name := by
    intro tools
    induction tools with
    | nil => exact fun m hm => hm
    | cons tool rest ih => exact fun m hm => ih (m.RegisterTool tool) (hstep tool m.tools hm)
  have hget : ∀ (g : String) (tools : List Tool) (m : Manager),
      (mapGet g (registerAll tools m).tools).isSome
        = ((mapGet g m.tools).isSome || tools.any (fun t => t.Name == g)) := by
    intro g tools
    induction tools with
    | nil => exact fun m => (Bool.or_false _).symm
    | cons tool rest ih =>
      intro m
      show (mapGet g (registerAll rest (m.RegisterTool tool)).tools).isSome = _
      rw [ih (m.RegisterTool tool)]
      show ((mapGet g (mapSet tool.Name tool m.tools)).isSome
          || rest.any (fun t => t.Name == g))
        = ((mapGet g m.tools).isSome || ((tool.Name == g) || rest.any (fun t => t.Name == g)))
      rw [mapGet_mapSet]
      by_cases hk : tool.Name = g
      · have hb : (tool.Name == g) = true := decide_eq_true hk
        rw [if_pos hk, hb]
        cases (mapGet g m.tools).isSome <;> rfl
      · have hb : (tool.Name == g) = false := decide_eq_false hk
        rw [if_neg hk, hb]
        rfl
  have hnotin : ∀ (k : String) (l : List (String × Tool)),
      k ∉ l.map Prod.fst → mapGet k l = none := by
    intro k l
    induction l with
    | nil => exact fun _ => rfl
    | cons kv rest ih =>
      obtain ⟨a, b⟩ := kv
      intro hnot
      show (if a = k then some b else mapGet k rest) = none
      rw [if_neg (fun hak => hnot (List.mem_cons.mpr (Or.inl hak.symm)))]
      exact ih (fun hin => hnot (List.mem_cons_of_mem _ hin))
  have hcount : ∀ (g : String) (l : List (String × Tool)),
      (l.map Prod.fst).Nodup ∧ (∀ kv ∈ l, kv.1 = kv.2.Name) →
      l.countP (fun kv => kv.2.Name == g) = if (mapGet g l).isSome then 1 else 0 := by
    intro g l
    induction l with
    | nil => exact fun _ => rfl
    | cons kv rest ih =>
      obtain ⟨a, b⟩ := kv
      intro hl
      have hab : a = b.Name := hl.2 (a, b) (List.mem_cons_self _ _)
      have hcons : a ∉ rest.map Prod.fst ∧ (rest.map Prod.fst).Nodup :=
        List.nodup_cons.mp hl.1
      rw [List.countP_cons,
        ih ⟨hcons.2, fun kv hkv => hl.2 kv (List.mem_cons_of_mem _ hkv)⟩]
      show ((if (mapGet g rest).isSome = true then 1 else 0)
          + if (b.Name == g) = true then 1 else 0)
        = if (if a = g then some b else mapGet g rest).isSome = true then 1 else 0
      by_cases hk : a = g
      · have hrest : (mapGet g rest).isSome = false := by
          rw [hnotin g rest (hk ▸ hcons.1)]
          rfl
        have hb : (b.Name == g) = true := decide_eq_true (hab.symm.trans hk)
        rw [hrest, hb, if_pos hk]
        rfl
      · have hb : (b.Name == g) = false :=
          decide_eq_false (fun hcontra => hk (hab.trans hcontra))
        rw [hb, if_neg hk]
        rfl
  have hrep : ∀ entries : List (String × Tool),
      descriptorsOf entries
        = List.replicate (entries.countP (fun kv => kv.2.Name == "generate_image"))
            generateImageToolDef := by
    intro entries
    induction entries with
    | nil => rfl
    | cons kv rest ih =>
      show List.map (fun _ => generateImageToolDef)
          (List.filter (fun kv => kv.2.Name == "generate_image") (kv :: rest))
        = List.replicate (List.countP (fun kv => kv.2.Name == "generate_image") (kv :: rest))
            generateImageToolDef
      rw [List.filter_cons, List.countP_cons]
      cases (kv.2.Name == "generate_image") with
      | true => exact congrArg (List.cons generateImageToolDef) ih
      | false => exact ih
  have hdesc : ∀ m : Manager, m.GetAvailableTools = descriptorsOf m.tools := fun _ => rfl
  constructor
  · rw [hdesc, hrep, hcount _ _ (hwf tools NewManager
      ⟨List.nodup_nil, fun kv hkv => absurd hkv (List.not_mem_nil _)⟩), hget]
    cases tools.any (fun t => t.Name == "generate_image") <;> rfl
  · intro entries hperm
    rw [hdesc, hrep, hrep, hperm.countP_eq]

end WhatsappBot
